import Mathlib

attribute [local semireducible] Rat.add Rat.sub Rat.mul Rat.inv Rat.ofScientific

set_option maxRecDepth 100000

/-!
Shallow embedding of the `financial-anonymizer` core (src/lib/anonymizer.ts and
src/lib/dialect.ts) together with theorems settling the specification claims.

Modelling conventions:
* JavaScript numbers are modelled as `Option ℚ` (`none` = NaN); arithmetic on
  the decimal values appearing in the pipeline is exact, so no floating-point
  rounding is modelled.  `Infinity` cannot arise on the inputs considered.
* JavaScript regular expressions are modelled by a small backtracking engine
  (`RE` / `reM`) that mirrors the JS semantics used by the source: leftmost
  match, alternation in written order, greedy/lazy quantifiers, word
  boundaries, anchors, case-insensitive flags, and the `lastIndex` behaviour
  of `.test` on global regexes.
* Host-defined date parsing (`new Date(...)` / `Date.parse`) is modelled as
  strict ISO `YYYY-MM-DD` parsing; other host-specific formats are not
  modelled.
* Character case mapping and whitespace are modelled on ASCII (plus NBSP and
  the byte-order mark, which JS counts as whitespace).
-/

namespace FinAnon

/-! ### Characters and JS string primitives -/

def isDigitCh (c : Char) : Bool := 48 ≤ c.toNat && c.toNat ≤ 57

def isAsciiUpperCh (c : Char) : Bool := 65 ≤ c.toNat && c.toNat ≤ 90

def isAsciiLowerCh (c : Char) : Bool := 97 ≤ c.toNat && c.toNat ≤ 122

def isAlphaCh (c : Char) : Bool := isAsciiUpperCh c || isAsciiLowerCh c

/-- JS `\w` character class: `[A-Za-z0-9_]`. -/
def isWordCh (c : Char) : Bool := isAlphaCh c || isDigitCh c || c == '_'

/-- JS `\s` / `trim` whitespace (ASCII portion plus NBSP and U+FEFF). -/
def isSpaceJS (c : Char) : Bool :=
  c == ' ' || (9 ≤ c.toNat && c.toNat ≤ 13) || c.toNat == 160 || c.toNat == 65279

def toLowerCh (c : Char) : Char :=
  if isAsciiUpperCh c then Char.ofNat (c.toNat + 32) else c

def toUpperCh (c : Char) : Char :=
  if isAsciiLowerCh c then Char.ofNat (c.toNat - 32) else c

def toLowerStr (s : String) : String := ⟨s.data.map toLowerCh⟩

/-- JS `String.prototype.trim`. -/
def trimJS (s : String) : String :=
  ⟨((s.data.dropWhile isSpaceJS).reverse.dropWhile isSpaceJS).reverse⟩

def listStartsWith : List Char → List Char → Bool
  | [], _ => true
  | _ :: _, [] => false
  | a :: as, b :: bs => a == b && listStartsWith as bs

def listHasInfix (needle : List Char) : List Char → Bool
  | [] => listStartsWith needle []
  | c :: tl => listStartsWith needle (c :: tl) || listHasInfix needle tl

/-- JS `String.prototype.includes` (substring containment). -/
def includesStr (hay needle : String) : Bool := listHasInfix needle.data hay.data

/-- A cell is falsy in JS exactly when it is the empty string. -/
def isFalsy (s : String) : Bool := s == ""

/-! ### JS numbers: `Option ℚ` with `none` = NaN -/

abbrev JNum := Option ℚ

def jGt (a b : JNum) : Bool :=
  match a, b with
  | some x, some y => decide (y < x)
  | _, _ => false

def jLt (a b : JNum) : Bool :=
  match a, b with
  | some x, some y => decide (x < y)
  | _, _ => false

def jLe (a b : JNum) : Bool :=
  match a, b with
  | some x, some y => decide (x ≤ y)
  | _, _ => false

/-- JS strict equality `===` on numbers: NaN is equal to nothing. -/
def jEq (a b : JNum) : Bool :=
  match a, b with
  | some x, some y => decide (x = y)
  | _, _ => false

/-- JS `!==`: note `NaN !== x` is `true`. -/
def jNe (a b : JNum) : Bool := !jEq a b

def jAbs (a : JNum) : JNum := a.map (fun q => |q|)

def jSub (a b : JNum) : JNum :=
  match a, b with
  | some x, some y => some (x - y)
  | _, _ => none

def jNeg (a : JNum) : JNum := a.map (fun q => -q)

/-- JS `isNaN` for our model. -/
def jIsNaN (a : JNum) : Bool := a.isNone

/-! ### Regular-expression engine

A CPS backtracking matcher whose DFS order mirrors the JS regex semantics:
alternation prefers the left branch, `starG` (greedy) tries the body first,
`starL` (lazy) tries the continuation first, and an iteration of a star that
consumes no characters is abandoned (as JS does).  The engine is fuelled to
keep it structurally recursive (hence kernel-reducible); the fuel is far
beyond what any of the fixed patterns can consume on the strings involved. -/

inductive RE where
  | eps : RE
  | cls : (Char → Bool) → RE
  | cat : RE → RE → RE
  | alt : RE → RE → RE
  | starG : RE → RE
  | starL : RE → RE
  | wb : RE
  | bos : RE
  | eos : RE

/-- JS `\b`: positions where exactly one side is a `\w` character. -/
def atWordBoundary (prev : Option Char) (s : List Char) : Bool :=
  let l := match prev with | some c => isWordCh c | none => false
  let r := match s with | c :: _ => isWordCh c | [] => false
  l != r

def reFuel : Nat := 1000000

/-- Try to match `re` starting exactly at the position described by
`(prev, s)`; on success the continuation receives the position after the
match.  Returns the suffix following the overall match chosen first in the
JS backtracking order. -/
def reM : Nat → RE → Option Char → List Char → (Option Char → List Char → Option (List Char)) → Option (List Char)
  | 0, _, _, _, _ => none
  | Nat.succ f, re, prev, s, k =>
    match re with
    | .eps => k prev s
    | .cls p =>
      match s with
      | [] => none
      | c :: tl => if p c then k (some c) tl else none
    | .cat a b => reM f a prev s (fun p2 s2 => reM f b p2 s2 k)
    | .alt a b =>
      match reM f a prev s k with
      | some r => some r
      | none => reM f b prev s k
    | .starG a =>
      match reM f a prev s
          (fun p2 s2 => if s2.length < s.length then reM f (RE.starG a) p2 s2 k else none) with
      | some r => some r
      | none => k prev s
    | .starL a =>
      match k prev s with
      | some r => some r
      | none =>
        reM f a prev s
          (fun p2 s2 => if s2.length < s.length then reM f (RE.starL a) p2 s2 k else none)
    | .wb => if atWordBoundary prev s then k prev s else none
    | .bos => match prev with | none => k prev s | some _ => none
    | .eos => match s with | [] => k prev s | _ => none

/-- Match `re` starting exactly here; return the remaining suffix. -/
def reHead (re : RE) (prev : Option Char) (s : List Char) : Option (List Char) :=
  reM reFuel re prev s (fun _ rest => some rest)

def lastOf (m : List Char) (prev : Option Char) : Option Char :=
  match m.getLast? with
  | some c => some c
  | none => prev

/-- Global regex replace (JS `String.replace` with a `/g` regex and a
replacement function). -/
def reReplAux : Nat → RE → (List Char → List Char) → Option Char → List Char → List Char
  | 0, _, _, _, s => s
  | Nat.succ fuel, re, f, prev, s =>
    match reHead re prev s with
    | some rest =>
      let m := s.take (s.length - rest.length)
      if m.isEmpty then
        match s with
        | [] => f []
        | c :: tl => f [] ++ c :: reReplAux fuel re f (some c) tl
      else
        f m ++ reReplAux fuel re f (lastOf m prev) rest
    | none =>
      match s with
      | [] => []
      | c :: tl => c :: reReplAux fuel re f (some c) tl

def jsReplaceAllF (re : RE) (f : String → String) (s : String) : String :=
  ⟨reReplAux (s.data.length + 1) re (fun m => (f ⟨m⟩).data) none s.data⟩

def jsReplaceAll (re : RE) (repl : String) (s : String) : String :=
  jsReplaceAllF re (fun _ => repl) s

/-- Non-global regex replace (first match only). -/
def reReplOnceAux : RE → (List Char → List Char) → Option Char → List Char → List Char
  | re, f, prev, s =>
    match reHead re prev s with
    | some rest => f (s.take (s.length - rest.length)) ++ rest
    | none =>
      match s with
      | [] => []
      | c :: tl => c :: reReplOnceAux re f (some c) tl

def jsReplaceOnce (re : RE) (repl : String) (s : String) : String :=
  ⟨reReplOnceAux re (fun _ => repl.data) none s.data⟩

/-- Does `re` match anywhere in the string? (stateless `.test`). -/
def hasMatchAux : RE → Option Char → List Char → Bool
  | re, prev, s =>
    match reHead re prev s with
    | some _ => true
    | none =>
      match s with
      | [] => false
      | c :: tl => hasMatchAux re (some c) tl

def jsTest (re : RE) (s : String) : Bool := hasMatchAux re none s.data

/-- Find the first match starting at or after the current position; returns
the absolute end position of the match. -/
def reFindFromAux : RE → Option Char → List Char → Nat → Option Nat
  | re, prev, s, pos =>
    match reHead re prev s with
    | some rest => some (pos + (s.length - rest.length))
    | none =>
      match s with
      | [] => none
      | c :: tl => reFindFromAux re (some c) tl (pos + 1)

/-- JS `.test` on a `/g` regex: the search starts at `lastIndex`; on success
`lastIndex` becomes the match end, on failure it is reset to `0`. -/
def jsTestG (re : RE) (s : String) (lastIndex : Nat) : Bool × Nat :=
  if lastIndex > s.data.length then (false, 0)
  else
    let prev := if lastIndex = 0 then none else s.data.get? (lastIndex - 1)
    match reFindFromAux re prev (s.data.drop lastIndex) lastIndex with
    | some e => (true, e)
    | none => (false, 0)

/-! ### Pattern builders -/

def chC (c : Char) : RE := .cls (fun x => x == c)

def chCI (c : Char) : RE := .cls (fun x => toLowerCh x == toLowerCh c)

def lit (s : String) : RE := s.data.foldr (fun c r => RE.cat (chC c) r) RE.eps

def liti (s : String) : RE := s.data.foldr (fun c r => RE.cat (chCI c) r) RE.eps

def reFail : RE := .cls (fun _ => false)

def alts (l : List RE) : RE := l.foldr RE.alt reFail

def altsLit (l : List String) : RE := alts (l.map lit)

def altsLiti (l : List String) : RE := alts (l.map liti)

def optG (r : RE) : RE := .alt r .eps

def plusG (r : RE) : RE := .cat r (.starG r)

def repN : Nat → RE → RE
  | 0, _ => .eps
  | Nat.succ n, r => .cat r (repN n r)

def repOpt : Nat → RE → RE
  | 0, _ => .eps
  | Nat.succ n, r => optG (.cat r (repOpt n r))

/-- `{lo,hi}` greedy. -/
def repRange (lo hi : Nat) (r : RE) : RE := .cat (repN lo r) (repOpt (hi - lo) r)

/-- `{lo,}` greedy. -/
def repMin (lo : Nat) (r : RE) : RE := .cat (repN lo r) (.starG r)

def digitC : RE := .cls isDigitCh

def wsC : RE := .cls isSpaceJS

def nonWsC : RE := .cls (fun c => !isSpaceJS c)

def wordC : RE := .cls isWordCh

def clsOf (cs : String) : RE := .cls (fun c => cs.data.contains c)

def clsOfCI (cs : String) : RE := .cls (fun c => cs.data.contains (toLowerCh c))

/-! ### The `PATTERNS` table (anonymizer.ts) -/

/-- `^\d{4}-\d{2}-\d{2}$` -/
def dateIsoPat : RE :=
  .cat .bos (.cat (repN 4 digitC) (.cat (chC '-') (.cat (repN 2 digitC)
    (.cat (chC '-') (.cat (repN 2 digitC) .eos)))))

/-- `^\d{1,2}\/\d{1,2}\/\d{2,4}$` -/
def dateUsPat : RE :=
  .cat .bos (.cat (repRange 1 2 digitC) (.cat (chC '/') (.cat (repRange 1 2 digitC)
    (.cat (chC '/') (.cat (repRange 2 4 digitC) .eos)))))

/-- `^\d{1,2}[\.-]\d{1,2}[\.-]\d{2,4}$` -/
def dateEuPat : RE :=
  .cat .bos (.cat (repRange 1 2 digitC) (.cat (clsOf ".-") (.cat (repRange 1 2 digitC)
    (.cat (clsOf ".-") (.cat (repRange 2 4 digitC) .eos)))))

/-- `^-?[$£€¥]?\s?[\d,]+(\.\d+)?$` -/
def moneyPat : RE :=
  .cat .bos (.cat (optG (chC '-')) (.cat (optG (clsOf "$£€¥")) (.cat (optG wsC)
    (.cat (plusG (.cls (fun c => isDigitCh c || c == ',')))
      (.cat (optG (.cat (chC '.') (plusG digitC))) .eos)))))

/-- `\b(?:\d[ -]*?){13,16}\b` -/
def cardPat : RE :=
  let body : RE := .cat digitC (.starL (clsOf " -"))
  .cat .wb (.cat (repRange 13 16 body) .wb)

/-- `\b\d{3}-\d{2}-\d{4}\b` -/
def ssnPat : RE :=
  .cat .wb (.cat (repN 3 digitC) (.cat (chC '-') (.cat (repN 2 digitC)
    (.cat (chC '-') (.cat (repN 4 digitC) .wb)))))

/-- `[\w\.-]+@[\w\.-]+\.\w+` -/
def emailPat : RE :=
  let ec : RE := .cls (fun c => isWordCh c || c == '.' || c == '-')
  .cat (plusG ec) (.cat (chC '@') (.cat (plusG ec) (.cat (chC '.') (plusG wordC))))

/-- `\b(?:\+?\d{1,2}[-.\s]?)?(?:\(\d{3}\)|\d{3})[-.\s]?\d{3}[-.\s]?\d{4}\b` -/
def phonePat : RE :=
  let sep : RE := .cls (fun c => c == '-' || c == '.' || isSpaceJS c)
  .cat .wb (.cat
    (optG (.cat (optG (chC '+')) (.cat (repRange 1 2 digitC) (optG sep))))
    (.cat (.alt (.cat (chC '(') (.cat (repN 3 digitC) (chC ')'))) (repN 3 digitC))
      (.cat (optG sep) (.cat (repN 3 digitC) (.cat (optG sep) (.cat (repN 4 digitC) .wb))))))

/-- `\bhttps?:\/\/\S+|\bwww\.\S+` (case-insensitive) -/
def urlPat : RE :=
  .alt
    (.cat .wb (.cat (liti "http") (.cat (optG (chCI 's')) (.cat (lit "://") (plusG nonWsC)))))
    (.cat .wb (.cat (liti "www.") (plusG nonWsC)))

/-- `\b\d{5}(?:-\d{4})?\b` -/
def zipPat : RE :=
  .cat .wb (.cat (repN 5 digitC) (.cat (optG (.cat (chC '-') (repN 4 digitC))) .wb))

/-- `\b\d{1,6}\s+[A-Za-z0-9.'-]+(?:\s+[A-Za-z0-9.'-]+){0,4}\s+(st|street|...|way)\b`
(case-insensitive) -/
def addressPat : RE :=
  let aw : RE := .cls (fun c => isAlphaCh c || isDigitCh c || c == '.' || c == '\'' || c == '-')
  let strWord : RE :=
    altsLiti ["st", "street", "ave", "avenue", "rd", "road", "blvd", "boulevard",
              "ln", "lane", "dr", "drive", "ct", "court", "pl", "place", "way"]
  .cat .wb (.cat (repRange 1 6 digitC) (.cat (plusG wsC) (.cat (plusG aw)
    (.cat (repOpt 4 (.cat (plusG wsC) (plusG aw)))
      (.cat (plusG wsC) (.cat strWord .wb))))))

/-- `\b(_[A-Z])\b` -/
def noisePat : RE :=
  .cat .wb (.cat (chC '_') (.cat (.cls isAsciiUpperCh) .wb))

def stateCodes : List String :=
  ["NY", "CA", "TX", "FL", "IL", "PA", "OH", "GA", "NC", "MI", "NJ", "VA", "WA",
   "AZ", "MA", "TN", "IN", "MO", "MD", "WI", "CO", "MN", "SC", "AL", "LA", "KY",
   "OR", "OK", "CT", "UT", "IA", "NV", "AR", "MS", "KS", "NM", "NE", "WV", "ID",
   "HI", "NH", "ME", "RI", "MT", "DE", "SD", "ND", "AK", "DC", "VT", "WY"]

/-- `\b(NY|CA|...|WY)\b|(\s(USA|US|CAN|UK)\s?$)` (case-sensitive) -/
def locationsPat : RE :=
  .alt (.cat .wb (.cat (altsLit stateCodes) .wb))
    (.cat wsC (.cat (altsLit ["USA", "US", "CAN", "UK"]) (.cat (optG wsC) .eos)))

/-- `\b([A-Z][a-z]+ [A-Z][a-z]+)\b` -/
def namesPat : RE :=
  .cat .wb (.cat (.cls isAsciiUpperCh) (.cat (plusG (.cls isAsciiLowerCh))
    (.cat (chC ' ') (.cat (.cls isAsciiUpperCh) (.cat (plusG (.cls isAsciiLowerCh)) .wb)))))

/-- `(REF|TXN|ID|TRX)[:#]?\s*[A-Z0-9-]{6,}` (case-insensitive) -/
def idLabeledPat : RE :=
  let idc : RE := .cls (fun c => isAlphaCh c || isDigitCh c || c == '-')
  .cat (altsLiti ["REF", "TXN", "ID", "TRX"])
    (.cat (optG (clsOf ":#")) (.cat (.starG wsC) (repMin 6 idc)))

/-- `\b[A-F0-9]{10,}\b` (case-sensitive) -/
def idHexPat : RE :=
  let hx : RE := .cls (fun c => isDigitCh c || (65 ≤ c.toNat && c.toNat ≤ 70))
  .cat .wb (.cat (repMin 10 hx) .wb)

/-- `\b(Store|Shop|#)\s?\#?\d{3,}\b` (case-insensitive) -/
def idStorePat : RE :=
  .cat .wb (.cat (.alt (liti "Store") (.alt (liti "Shop") (lit "#")))
    (.cat (optG wsC) (.cat (optG (chC '#')) (.cat (repMin 3 digitC) .wb))))

def idPats : List RE := [idLabeledPat, idHexPat, idStorePat]

/-- `^(SQ \*|PAYPAL \*|UBER \*|TST \*)` (case-insensitive, non-global) -/
def merchantRailPat : RE :=
  .cat .bos (altsLiti ["SQ *", "PAYPAL *", "UBER *", "TST *"])

/-- `\b(debit|credit|dr|cr|withdrawal|deposit|purchase|payment|fee|refund|reversal)\b`
(case-insensitive) -/
def typeValuesPat : RE :=
  .cat .wb (.cat (altsLiti ["debit", "credit", "dr", "cr", "withdrawal", "deposit",
    "purchase", "payment", "fee", "refund", "reversal"]) .wb)

/-- `(beginning balance|ending balance|starting balance|balance forward|opening balance|closing balance)`
(case-insensitive) -/
def balanceSummaryPat : RE :=
  altsLiti ["beginning balance", "ending balance", "starting balance",
            "balance forward", "opening balance", "closing balance"]

/-- `[_/\\]+` -/
def slashNoisePat : RE := plusG (.cls (fun c => c == '_' || c == '/' || c == '\\'))

/-- `[|]+` -/
def pipeNoisePat : RE := plusG (chC '|')

/-- `\s+` -/
def wsRunPat : RE := plusG wsC

/-! ### Number parsing (`parseFloat`, `cleanCurrency`) -/

def digitsToNat (ds : List Char) : Nat := ds.foldl (fun n c => n * 10 + (c.toNat - 48)) 0

/-- Digits and optional fraction of `parseFloat`, after the sign. -/
def parseFloatCore (cs : List Char) : Option ℚ :=
  let intDs := cs.takeWhile isDigitCh
  let rest := cs.drop intDs.length
  let fracDs :=
    match rest with
    | '.' :: tl => tl.takeWhile isDigitCh
    | _ => []
  if intDs.isEmpty && fracDs.isEmpty then none
  else some ((digitsToNat intDs : ℚ) + (digitsToNat fracDs : ℚ) / ((10 : ℚ) ^ fracDs.length))

/-- JS `parseFloat` on the character strings reaching it in this code base
(an exponent part cannot occur: `cleanCurrency` strips the letter `e`). -/
def jsParseFloat (cs0 : List Char) : Option ℚ :=
  let cs := cs0.dropWhile isSpaceJS
  match cs with
  | '-' :: tl => (parseFloatCore tl).map (fun q => -q)
  | '+' :: tl => parseFloatCore tl
  | _ => parseFloatCore cs

/-- `isNaN(parseFloat(s))` for an arbitrary string. -/
def parseFloatNaN (s : String) : Bool :=
  let cs := s.data.dropWhile isSpaceJS
  let cs2 :=
    match cs with
    | '-' :: tl => tl
    | '+' :: tl => tl
    | _ => cs
  match cs2 with
  | [] => true
  | c :: tl =>
    if isDigitCh c then false
    else if c == '.' then
      match tl with
      | d :: _ => !isDigitCh d
      | [] => true
    else !listStartsWith "Infinity".data cs2

def currencyKeep (c : Char) : Bool :=
  isDigitCh c || c == '.' || c == '-' || c == ',' || c == '(' || c == ')'

/-- `cleanCurrency` (anonymizer.ts): strip non-numeric characters, turn the
accounting format `( … )` into a leading minus, drop commas, `parseFloat`;
the empty string short-circuits to `0`. -/
def cleanCurrency (val : String) : JNum :=
  if isFalsy val then some 0
  else
    let clean := val.data.filter currencyKeep
    let isParen :=
      (match clean with | '(' :: _ => true | _ => false) &&
      (match clean.getLast? with | some c => c == ')' | none => false)
    let clean2 :=
      if isParen then '-' :: clean.filter (fun c => !(c == '(' || c == ')'))
      else clean
    jsParseFloat (clean2.filter (fun c => !(c == ',')))

/-! ### Date model

`new Date(v)` / `Date.parse(v)` are host-defined for non-ISO strings; the
model accepts exactly strict ISO `YYYY-MM-DD` calendar dates, for which
`toISOString().split('T')[0]` returns the input string unchanged. -/

def daysInMonth (y m : Nat) : Nat :=
  if m = 2 then (if (y % 4 = 0 && y % 100 ≠ 0) || y % 400 = 0 then 29 else 28)
  else if m = 4 || m = 6 || m = 9 || m = 11 then 30
  else 31

def jsParseDate (val : String) : Option String :=
  match val.data with
  | [y1, y2, y3, y4, '-', m1, m2, '-', d1, d2] =>
    if [y1, y2, y3, y4, m1, m2, d1, d2].all isDigitCh then
      let y := digitsToNat [y1, y2, y3, y4]
      let m := digitsToNat [m1, m2]
      let d := digitsToNat [d1, d2]
      if 1 ≤ m && m ≤ 12 && 1 ≤ d && d ≤ daysInMonth y m then some val else none
    else none
  | _ => none

/-- `parseDateString` (anonymizer.ts). -/
def parseDateString (val : String) : Option String :=
  if isFalsy val then none else jsParseDate val

/-- `!isNaN(Date.parse(val))` in the column classifier. -/
def jsDateParseOk (val : String) : Bool := (jsParseDate val).isSome

/-! ### dialect.ts -/

inductive RowOrder where
  | asc | desc | unknown
deriving DecidableEq, Repr

inductive DirectionStrategy where
  | split | type | signed | balance | fallback
deriving DecidableEq, Repr

inductive TxType where
  | income | expense
deriving DecidableEq, Repr

structure DirectionDecision where
  strategy : DirectionStrategy
  order : RowOrder
  confidence : ℚ
deriving DecidableEq, Repr

/-- `TYPE_TOKENS`: anchored case-insensitive whole-string matches. -/
def typeTokenKind (val : String) : Option TxType :=
  let v := toLowerStr val
  if ["debit", "db", "dr", "withdrawal", "withdraw", "payment", "purchase", "pos",
      "fee"].contains v then some TxType.expense
  else if ["credit", "cr", "deposit", "refund", "reversal", "reimb",
      "reimbursement"].contains v then some TxType.income
  else none

/-- JS `<` on strings (lexicographic by code unit). -/
def listLtJS : List Char → List Char → Bool
  | [], [] => false
  | [], _ :: _ => true
  | _ :: _, [] => false
  | a :: as, b :: bs => if a == b then listLtJS as bs else decide (a.toNat < b.toNat)

def strLtJS (a b : String) : Bool := listLtJS a.data b.data

/-- Counts of strictly-increasing and strictly-decreasing adjacent pairs,
in file order (`inferRowOrderFromDates` loop body). -/
def ascDescCounts : List String → Nat × Nat
  | [] => (0, 0)
  | [_] => (0, 0)
  | a :: b :: tl =>
    let p := ascDescCounts (b :: tl)
    if strLtJS a b then (p.1 + 1, p.2)
    else if strLtJS b a then (p.1, p.2 + 1)
    else p

/-- `inferRowOrderFromDates` (dialect.ts). -/
def inferRowOrderFromDates (dateValues : List (Option String)) : RowOrder :=
  let isoDates := dateValues.filterMap id
  if isoDates.length < 3 then RowOrder.unknown
  else
    let p := ascDescCounts isoDates
    if p.1 = 0 && p.2 = 0 then RowOrder.unknown
    else if p.1 ≥ p.2 then RowOrder.asc
    else RowOrder.desc

/-- `row[c] ?? ''` style cell access. -/
def cellAt (row : List String) (c : Nat) : String := row.getD c ""

/-- Insertion-ordered record update (JS object property semantics). -/
def recordSet {α : Type} (m : List (String × α)) (k : String) (v : α) : List (String × α) :=
  if (m.map Prod.fst).contains k then
    m.map (fun p => if p.1 = k then (k, v) else p)
  else m ++ [(k, v)]

def recordGet (m : List (String × Nat)) (k : String) : Nat :=
  ((m.find? (fun p => p.1 = k)).map Prod.snd).getD 0

def recordBump (m : List (String × Nat)) (k : String) (n : Nat := 1) : List (String × Nat) :=
  recordSet m k (recordGet m k + n)

/-- Score and mapping accumulated by `detectTypeColumn` for one column. -/
def dtcColumnScore (sampleRows : List (List String)) (c : Nat) :
    Nat × List (String × TxType) :=
  sampleRows.foldl
    (fun acc row =>
      let raw := trimJS (cellAt row c)
      if isFalsy raw then acc
      else
        let val := toLowerStr raw
        let acc1 :=
          match typeTokenKind val with
          | some k => (acc.1 + 3, recordSet acc.2 val k)
          | none => acc
        let acc2 := if includesStr (toLowerStr raw) "debit" then (acc1.1 + 1, acc1.2) else acc1
        if includesStr (toLowerStr raw) "credit" then (acc2.1 + 1, acc2.2) else acc2)
    (0, [])

/-- `detectTypeColumn` (dialect.ts). -/
def detectTypeColumn (rows : List (List String)) :
    Option (Nat × List (String × TxType)) :=
  if rows.length < 2 then none
  else
    let sampleRows := (rows.drop 1).take (min rows.length 25 - 1)
    let colCount := (rows.headD []).length
    let best :=
      (List.range colCount).foldl
        (fun best c =>
          let sc := dtcColumnScore sampleRows c
          if sc.1 > best.1 then (sc.1, some c, sc.2) else best)
        ((0 : Nat), (none : Option Nat), ([] : List (String × TxType)))
    match best.2.1 with
    | none => none
    | some idx => if best.1 < 6 then none else some (idx, best.2.2)

/-- `mapTypeToDirection` (dialect.ts). -/
def mapTypeToDirection (rawType : String) : Option TxType :=
  let val := trimJS rawType
  if isFalsy val then none
  else
    match typeTokenKind val with
    | some k => some k
    | none =>
      let lv := toLowerStr val
      if ["debit", "withdraw", "payment", "purchase", "fee"].any
          (fun t => includesStr lv t) then some TxType.expense
      else if ["credit", "deposit", "refund", "reversal", "reimb"].any
          (fun t => includesStr lv t) then some TxType.income
      else none

inductive Orientation where
  | forward | reverse
deriving DecidableEq, Repr

def jTruthy (a : JNum) : Bool :=
  match a with
  | some q => decide (q ≠ 0)
  | none => false

/-- `chooseBalanceOrientation` (dialect.ts). -/
def chooseBalanceOrientation (balances amounts : List JNum) (tolerance : ℚ) :
    Orientation × ℚ :=
  let triples := (balances.zip (balances.drop 1)).zip (amounts.drop 1)
  let counts :=
    triples.foldl
      (fun (acc : Nat × Nat × Nat) t =>
        let amt := jAbs t.2
        if !jTruthy amt then acc
        else
          let f := jSub t.1.2 t.1.1
          let r := jSub t.1.1 t.1.2
          let fm := if jLe (jAbs (jSub (jAbs f) amt)) (some tolerance) then acc.2.1 + 1 else acc.2.1
          let rm := if jLe (jAbs (jSub (jAbs r) amt)) (some tolerance) then acc.2.2 + 1 else acc.2.2
          (acc.1 + 1, fm, rm))
      (0, 0, 0)
  if counts.1 = 0 then (Orientation.forward, 0)
  else
    let fr := (counts.2.1 : ℚ) / (counts.1 : ℚ)
    let rr := (counts.2.2 : ℚ) / (counts.1 : ℚ)
    if fr ≥ rr then (Orientation.forward, fr) else (Orientation.reverse, rr)

structure DirectionArgs where
  hasSplit : Bool
  hasType : Bool
  hasSignedAmount : Bool
  hasBalance : Bool
  rowOrder : RowOrder
  balanceMatchRate : Option ℚ
deriving Repr

/-- `inferDirectionDecision` (dialect.ts). -/
def inferDirectionDecision (args : DirectionArgs) : DirectionDecision :=
  if args.hasSplit then ⟨DirectionStrategy.split, args.rowOrder, 1⟩
  else if args.hasType then ⟨DirectionStrategy.type, args.rowOrder, 95 / 100⟩
  else if args.hasSignedAmount then ⟨DirectionStrategy.signed, args.rowOrder, 9 / 10⟩
  else if args.hasBalance then
    ⟨DirectionStrategy.balance, args.rowOrder,
      min (6 / 10 + (args.balanceMatchRate.getD 0) * (4 / 10)) (95 / 100)⟩
  else ⟨DirectionStrategy.fallback, args.rowOrder, 3 / 10⟩

/-! ### `shapeRows` (anonymizer.ts) -/

/-- A row survives the cleaning filter iff some cell is non-blank. -/
def rowNonBlank (r : List String) : Bool := r.any (fun c => !isFalsy (trimJS c))

def stripBomCell (s : String) : String :=
  match s.data with
  | c :: tl => if c.toNat == 65279 then ⟨tl⟩ else s
  | [] => s

def natToStr (n : Nat) : String := toString n

def extendHeader (header : List String) (maxCols : Nat) : List String :=
  header ++ ((List.range (maxCols - header.length)).map
    (fun i => "Column_" ++ natToStr (header.length + i + 1)))

def padRow (r : List String) (maxCols : Nat) : List String :=
  r ++ List.replicate (maxCols - r.length) ""

/-- `shapeRows`: drop all-blank rows, strip a BOM from the first header
cell, grow the header to the widest row, pad short rows. -/
def shapeRows (rows : List (List String)) : List (List String) :=
  let cleaned := rows.filter rowNonBlank
  match cleaned with
  | [] => []
  | h :: rest =>
    let header0 :=
      match h with
      | [] => []
      | c :: tl => stripBomCell c :: tl
    let maxCols := rest.foldl (fun m r => max m r.length) header0.length
    extendHeader header0 maxCols :: rest.map (fun r => padRow r maxCols)

/-! ### Column classifier (`detectColumnsWithContext`) -/

inductive ColumnType where
  | date | amount | debit | credit | balance | description | type | unknown | metadata
deriving DecidableEq, Repr

structure ColumnAnalysis where
  columnIndex : Nat
  columnType : ColumnType
  confidence : ℚ
  sampleValue : Option String
deriving DecidableEq, Repr

structure ColScores where
  date : Nat
  amount : Nat
  balance : Nat
  description : Nat
  debit : Nat
  credit : Nat
  metadata : Nat
  type : Nat
deriving DecidableEq, Repr

/-- Header-keyword heuristics plus the type-column hint. -/
def headerScores (headerLc : String) (typeHint : Option Nat) (c : Nat) : ColScores :=
  { date := if includesStr headerLc "date" || includesStr headerLc "time" then 5 else 0
    amount := 0
    balance := if includesStr headerLc "bal" then 5 else 0
    description :=
      if includesStr headerLc "desc" || includesStr headerLc "memo" ||
         includesStr headerLc "particular" then 5 else 0
    debit :=
      if includesStr headerLc "debit" || includesStr headerLc "withdr" ||
         includesStr headerLc "out" then 5 else 0
    credit :=
      if includesStr headerLc "credit" || includesStr headerLc "deposit" ||
         includesStr headerLc "in" then 5 else 0
    metadata :=
      if includesStr headerLc "id" || includesStr headerLc "ref" ||
         includesStr headerLc "code" then 2 else 0
    type :=
      (if includesStr headerLc "type" || includesStr headerLc "transaction type" ||
          includesStr headerLc "tran type" then 5 else 0) +
      (if typeHint = some c then 6 else 0) }

structure ColAcc where
  scores : ColScores
  validSamples : Nat
  emptyCount : Nat
  numericCount : Nat
  dateLikeCount : Nat
  textLikeCount : Nat
  idLikeCount : Nat
  numericVals : List ℚ
deriving Repr

/-- Content heuristics for one sampled cell. -/
def colContentStep (headerLc : String) (c : Nat) (acc : ColAcc) (row : List String) : ColAcc :=
  let val := cellAt row c
  if isFalsy val then { acc with emptyCount := acc.emptyCount + 1 }
  else
    let acc := { acc with validSamples := acc.validSamples + 1 }
    let acc :=
      if jsTest dateIsoPat val || jsTest dateUsPat val || jsTest dateEuPat val ||
         jsDateParseOk val then
        { acc with scores := { acc.scores with date := acc.scores.date + 3 }
                   dateLikeCount := acc.dateLikeCount + 1 }
      else acc
    let acc :=
      if jsTest moneyPat val then
        match cleanCurrency val with
        | some q =>
          let sc := { acc.scores with amount := acc.scores.amount + 1 }
          let sc :=
            if includesStr headerLc "debit" && decide (0 < q) then
              { sc with debit := sc.debit + 2 }
            else sc
          { acc with numericCount := acc.numericCount + 1
                     numericVals := acc.numericVals ++ [q]
                     scores := sc }
        | none => acc
      else acc
    let acc :=
      if val.length > 5 && parseFloatNaN val && !jsTest dateIsoPat val then
        { acc with scores := { acc.scores with description := acc.scores.description + 2 }
                   textLikeCount := acc.textLikeCount + 1 }
      else acc
    let acc :=
      if idPats.any (fun p => jsTest p val) then
        { acc with idLikeCount := acc.idLikeCount + 1
                   scores := { acc.scores with metadata := acc.scores.metadata + 2 } }
      else acc
    if jsTest typeValuesPat val then
      { acc with scores := { acc.scores with type := acc.scores.type + 2 } }
    else acc

/-- Mean absolute successive delta over a column's numeric samples. -/
def deltaStats (vals : List ℚ) : ℚ × Nat :=
  (vals.zip (vals.drop 1)).foldl (fun acc p => (acc.1 + |p.2 - p.1|, acc.2 + 1)) (0, 0)

def scoresMax (s : ColScores) : Nat :=
  max s.date (max s.amount (max s.balance (max s.description
    (max s.debit (max s.credit (max s.metadata s.type))))))

/-- `Object.keys(typeScores).reduce((a,b) => scores[a] > scores[b] ? a : b)`:
the accumulator survives only on a strictly greater score, so on ties the
later key (in insertion order date, amount, balance, description, debit,
credit, metadata, type) wins. -/
def scoresArgmax (s : ColScores) : ColumnType :=
  let pick : ColumnType × Nat → ColumnType × Nat → ColumnType × Nat :=
    fun a b => if a.2 > b.2 then a else b
  (([(ColumnType.amount, s.amount), (ColumnType.balance, s.balance),
     (ColumnType.description, s.description), (ColumnType.debit, s.debit),
     (ColumnType.credit, s.credit), (ColumnType.metadata, s.metadata),
     (ColumnType.type, s.type)].foldl pick (ColumnType.date, s.date))).1

/-- Full analysis of column `c`; the returned flag is the "possible split
column" marker (`bestType === 'amount' && emptyCount > 0`). -/
def analyzeColumn (sampleRows : List (List String)) (headerLc : String)
    (typeHint : Option Nat) (colCount : Nat) (c : Nat) : ColumnAnalysis × Bool :=
  let acc0 : ColAcc :=
    { scores := headerScores headerLc typeHint c
      validSamples := 0, emptyCount := 0, numericCount := 0
      dateLikeCount := 0, textLikeCount := 0, idLikeCount := 0, numericVals := [] }
  let acc := sampleRows.foldl (colContentStep headerLc c) acc0
  let sampleN : ℚ := (max sampleRows.length 1 : Nat)
  let nonEmptyDensity : ℚ := (acc.validSamples : ℚ) / sampleN
  let numericDensity : ℚ := (acc.numericCount : ℚ) / sampleN
  let sc := acc.scores
  let sc := if numericDensity ≥ 7 / 10 then { sc with amount := sc.amount + 2 } else sc
  let sc := if numericDensity ≥ 85 / 100 then { sc with amount := sc.amount + 2 } else sc
  let sc :=
    if acc.numericVals.length ≥ 3 then
      let meanAbs : ℚ := (acc.numericVals.map (fun v => |v|)).sum / (acc.numericVals.length : ℚ)
      let ds := deltaStats acc.numericVals
      let meanAbsDelta : ℚ := if ds.2 = 0 then 0 else ds.1 / (ds.2 : ℚ)
      let ratio : ℚ := if meanAbs > 0 then meanAbsDelta / meanAbs else 1
      let sc := if ratio < 1 / 2 && nonEmptyDensity ≥ 6 / 10 then
          { sc with balance := sc.balance + 2 } else sc
      if ratio < 1 / 4 && nonEmptyDensity ≥ 7 / 10 then
        { sc with balance := sc.balance + 3 } else sc
    else sc
  let textDensity : ℚ := (acc.textLikeCount : ℚ) / sampleN
  let idDensity : ℚ := (acc.idLikeCount : ℚ) / sampleN
  let sc :=
    if textDensity ≥ 1 / 2 && idDensity < 1 / 5 then
      { sc with description := sc.description + 2 } else sc
  let sc := if idDensity ≥ 2 / 5 then { sc with description := sc.description - 2 } else sc
  let maxScore := scoresMax sc
  let bestType :=
    if acc.validSamples = 0 then ColumnType.unknown
    else if maxScore > 0 then scoresArgmax sc
    else ColumnType.unknown
  let bestType :=
    if bestType = ColumnType.amount && acc.validSamples = sampleRows.length &&
       includesStr headerLc "bal" then ColumnType.balance else bestType
  -- Positional override: rightmost, mostly-numeric, mostly non-empty column
  -- is force-classified balance (the +25 score boost in the source happens
  -- after maxScore is computed, so it does not affect the confidence).
  let bestType :=
    if c = colCount - 1 && colCount ≠ 0 && numericDensity ≥ 1 / 2 &&
       nonEmptyDensity ≥ 1 / 2 then ColumnType.balance else bestType
  let splitFlag := bestType = ColumnType.amount && acc.emptyCount > 0
  let bestType := if bestType = ColumnType.amount && sc.debit > 2 then ColumnType.debit else bestType
  let bestType := if bestType = ColumnType.amount && sc.credit > 2 then ColumnType.credit else bestType
  (⟨c, bestType, min ((maxScore : ℚ) / ((acc.validSamples * 2 + 5 : Nat) : ℚ)) 1,
    sampleRows.head?.bind (fun r => r.get? c)⟩, splitFlag)

/-- The split-pair post-analysis over the first two possible split columns. -/
def splitAdjust (sampleRows : List (List String)) (headers : List String)
    (numericCols : List Nat) (analysis : List ColumnAnalysis) : List ColumnAnalysis :=
  match numericCols with
  | c1 :: c2 :: _ =>
    let stats :=
      sampleRows.foldl
        (fun (st : Bool × Nat × Nat) row =>
          let v1 := !isFalsy (cellAt row c1)
          let v2 := !isFalsy (cellAt row c2)
          (st.1 || (v1 && v2),
           (if v1 then st.2.1 + 1 else st.2.1),
           (if v2 then st.2.2 + 1 else st.2.2)))
        (false, 0, 0)
    if stats.1 then analysis
    else
      let h1 := cellAt headers c1
      let c1Type : ColumnType :=
        if includesStr h1 "dep" || includesStr h1 "cr" then ColumnType.credit
        else if includesStr h1 "with" || includesStr h1 "dr" then ColumnType.debit
        else if stats.2.1 > stats.2.2 then ColumnType.debit
        else ColumnType.credit
      let c2Type := if c1Type = ColumnType.debit then ColumnType.credit else ColumnType.debit
      let upd := fun (l : List ColumnAnalysis) (i : Nat) (t : ColumnType) =>
        l.map (fun a => if a.columnIndex = i then { a with columnType := t } else a)
      upd (upd analysis c1 c1Type) c2 c2Type
  | _ => analysis

/-- `detectColumnsWithContext` (anonymizer.ts). -/
def detectColumnsWithContext (rows : List (List String)) : List ColumnAnalysis :=
  if rows.length < 2 then []
  else
    let headers := (rows.headD []).map toLowerStr
    let sampleRows := (rows.drop 1).take (min rows.length 25 - 1)
    let colCount := (rows.headD []).length
    let typeHint := (detectTypeColumn rows).map Prod.fst
    let results :=
      (List.range colCount).map
        (fun c => analyzeColumn sampleRows (cellAt headers c) typeHint colCount c)
    let analysis := results.map Prod.fst
    let numericCols :=
      (results.zip (List.range colCount)).filterMap
        (fun p => if p.1.2 then some p.2 else none)
    splitAdjust sampleRows headers numericCols analysis

/-! ### Options and the removal report -/

structure AnonymizerOptions where
  maskPii : Bool := true
  scrubContacts : Bool := false
  fuzzLocation : Bool := false
  cleanMetadata : Bool := false
  ultraClean : Bool := false
  customRemoveTerms : List String := []
deriving Repr

structure RemovalReport where
  redactions : List (String × Nat)
  idTokensRemoved : Nat
  merchantNormalized : Nat
  customRemoved : Nat
  customTermsCount : Nat
  ultraCleanApplied : Bool
deriving DecidableEq, Repr

/-- Count of global matches (`String.match(re).length`, also the number of
replacements a global replace performs). -/
def reCountAux : Nat → RE → Option Char → List Char → Nat
  | 0, _, _, _ => 0
  | Nat.succ fuel, re, prev, s =>
    match reHead re prev s with
    | some rest =>
      let m := s.take (s.length - rest.length)
      if m.isEmpty then
        match s with
        | [] => 1
        | c :: tl => 1 + reCountAux fuel re (some c) tl
      else 1 + reCountAux fuel re (lastOf m prev) rest
    | none =>
      match s with
      | [] => 0
      | c :: tl => reCountAux fuel re (some c) tl

def reCount (re : RE) (s : String) : Nat := reCountAux (s.data.length + 1) re none s.data

/-- Whitespace collapse `replace(/\s+/g, ' ')`. -/
def collapseAux : Bool → List Char → List Char
  | _, [] => []
  | lastSp, c :: rest =>
    if isSpaceJS c then
      if lastSp then collapseAux true rest else ' ' :: collapseAux true rest
    else c :: collapseAux false rest

def collapseWS (s : String) : String := ⟨collapseAux false s.data⟩

/-- Title casing `replace(/\w\S*/g, txt => txt[0].toUpperCase() +
txt.substr(1).toLowerCase())`: a token starts at a `\w` character and runs
through following non-space characters. -/
def titleAux : Bool → List Char → List Char
  | _, [] => []
  | true, c :: rest =>
    if isSpaceJS c then c :: titleAux false rest else toLowerCh c :: titleAux true rest
  | false, c :: rest =>
    if isWordCh c then toUpperCh c :: titleAux true rest else c :: titleAux false rest

def titleCaseJS (s : String) : String := ⟨titleAux false s.data⟩

/-- The trimmed, non-empty custom terms. -/
def activeTerms (o : AnonymizerOptions) : List String :=
  (o.customRemoveTerms.map trimJS).filter (fun t => !isFalsy t)

/-- Body of the custom-term removal loop: remove one term (a case-insensitive
escaped literal made global) and count the removals. -/
def customStep (st : String × Option RemovalReport) (term : String) :
    String × Option RemovalReport :=
  let re := liti term
  let n := reCount re st.1
  if n > 0 then
    (jsReplaceAll re "" st.1,
     st.2.map (fun r => { r with customRemoved := r.customRemoved + n }))
  else st

/-- `applyCustomRemovals` (anonymizer.ts): each term is turned into an
escaped case-insensitive global regex, i.e. a case-insensitive literal. -/
def applyCustomRemovals (o : AnonymizerOptions) (input : String)
    (report : Option RemovalReport) : String × Option RemovalReport :=
  let terms := activeTerms o
  if terms.isEmpty || isFalsy input then (input, report)
  else
    let st := terms.foldl customStep (input, report)
    (trimJS (collapseWS st.1), st.2)

/-- One counted PII-masking step: replace, and bump the per-kind redaction
count when the string changed. -/
def piiStep (pat : RE) (repl : String) (key : String)
    (st : String × Option RemovalReport) : String × Option RemovalReport :=
  let c2 := jsReplaceAll pat repl st.1
  if c2 ≠ st.1 then
    (c2, st.2.map (fun r => { r with redactions := recordBump r.redactions key }))
  else (c2, st.2)

/-- Body of the ID-token removal loop: strip one ID pattern and, when the
string changed, count one removed token. -/
def idStep (st : String × Option RemovalReport) (pat : RE) :
    String × Option RemovalReport :=
  let c2 := jsReplaceAll pat "" st.1
  if c2 ≠ st.1 then
    (c2, st.2.map (fun r => { r with idTokensRemoved := r.idTokensRemoved + 1 }))
  else (c2, st.2)

/-- `sanitizeDescription` (anonymizer.ts). -/
def sanitizeDescription (o : AnonymizerOptions) (raw : String)
    (report : Option RemovalReport) : String × Option RemovalReport :=
  if isFalsy raw then ("", report)
  else
    let st := (trimJS raw, report)
    let st := applyCustomRemovals o st.1 st.2
    let st :=
      if o.maskPii then
        let st := piiStep cardPat "****" "card" st
        let st := piiStep ssnPat "[SSN]" "ssn" st
        let st := piiStep emailPat "[EMAIL]" "email" st
        let st := piiStep phonePat "[PHONE]" "phone" st
        let st := piiStep urlPat "[URL]" "url" st
        let st := piiStep addressPat "[ADDRESS]" "address" st
        piiStep zipPat "[ZIP]" "zip" st
      else st
    let st := idPats.foldl idStep st
    let st := if o.scrubContacts then (jsReplaceAll namesPat "Individual" st.1, st.2) else st
    let st :=
      if o.fuzzLocation then
        let c2 := jsReplaceAll locationsPat " [LOC]" st.1
        if c2 ≠ st.1 then
          (c2, st.2.map (fun r => { r with redactions := recordBump r.redactions "location" }))
        else (c2, st.2)
      else st
    let c := st.1
    let c := jsReplaceAll noisePat "" c
    let c := jsReplaceAll slashNoisePat " " c
    let c := jsReplaceAll pipeNoisePat " " c
    let c := trimJS (collapseWS c)
    let c := jsReplaceOnce merchantRailPat "" c
    (trimJS (titleCaseJS c), st.2)

/-! ### `normalizeMerchant` (anonymizer.ts) -/

def sepStarC : RE := .starG (.cls (fun c => c == ':' || c == '-' || isSpaceJS c))

/-- `^(pos|purchase|debit|credit|card|visa|mastercard|mc|amex)\b[:\-\s]*` -/
def payModePat : RE :=
  .cat .bos (.cat (altsLiti ["pos", "purchase", "debit", "credit", "card", "visa",
    "mastercard", "mc", "amex"]) (.cat .wb sepStarC))

/-- `^(ach|wire|zelle|venmo|cash app|paypal)\b[:\-\s]*` -/
def railModePat : RE :=
  .cat .bos (.cat (altsLiti ["ach", "wire", "zelle", "venmo", "cash app", "paypal"])
    (.cat .wb sepStarC))

/-- `^(online transfer|mobile deposit|direct deposit)\b[:\-\s]*` -/
def onlineModePat : RE :=
  .cat .bos (.cat (altsLiti ["online transfer", "mobile deposit", "direct deposit"])
    (.cat .wb sepStarC))

/-- `\b(DES:|ID:|INDN:|CO:|PPD|WEB|CCD|ARC|EFT|CTX|POP|RCK|TEL|TRX)\b` -/
def junkCodesPat : RE :=
  .cat .wb (.cat (altsLiti ["DES:", "ID:", "INDN:", "CO:", "PPD", "WEB", "CCD",
    "ARC", "EFT", "CTX", "POP", "RCK", "TEL", "TRX"]) .wb)

/-- `\b\d{1,2}[\/\-]\d{1,2}([\/\-]\d{2,4})?\b` (slash-or-dash separators) -/
def descDatePat : RE :=
  .cat .wb (.cat (repRange 1 2 digitC) (.cat (clsOf "/-") (.cat (repRange 1 2 digitC)
    (.cat (optG (.cat (clsOf "/-") (repRange 2 4 digitC))) .wb))))

/-- `\b\d+\.\d+\b` -/
def decimalNumPat : RE :=
  .cat .wb (.cat (plusG digitC) (.cat (chC '.') (.cat (plusG digitC) .wb)))

/-- `\b(#|store|stn|branch|location|loc)\s*[-#:]?\s*\d+\b` -/
def storeNumPat : RE :=
  .cat .wb (.cat (.alt (lit "#") (altsLiti ["store", "stn", "branch", "location", "loc"]))
    (.cat (.starG wsC) (.cat (optG (clsOf "-#:")) (.cat (.starG wsC)
      (.cat (plusG digitC) .wb)))))

/-- `\b\d{2,}\b` -/
def num2Pat : RE := .cat .wb (.cat (repMin 2 digitC) .wb)

def transferToPhonePat : RE :=
  .cat .wb (.cat (altsLiti ["ssv to", "tfr-to", "tfr to", "transfer to"])
    (.cat (.starG wsC) (.cat (optG (chC '[')) (.cat (liti "phone") (optG (chC ']'))))))

def transferFromPhonePat : RE :=
  .cat .wb (.cat (altsLiti ["ssv from", "tfr-fr", "tfr from", "transfer from"])
    (.cat (.starG wsC) (.cat (optG (chC '[')) (.cat (liti "phone") (optG (chC ']'))))))

def transferToPat : RE :=
  .cat .wb (.cat (altsLiti ["ssv to", "tfr-to", "tfr to", "transfer to"]) .wb)

def transferFromPat : RE :=
  .cat .wb (.cat (altsLiti ["ssv from", "tfr-fr", "tfr from", "transfer from"]) .wb)

/-- `\b(ssv|tfr)[\s-]*(to|from)?\b` -/
def transferBarePat : RE :=
  .cat .wb (.cat (altsLiti ["ssv", "tfr"]) (.cat (.starG (.cls (fun c => isSpaceJS c || c == '-')))
    (.cat (optG (altsLiti ["to", "from"])) .wb)))

/-- `\b[A-Z]\b` (case-sensitive) -/
def singleCapPat : RE := .cat .wb (.cat (.cls isAsciiUpperCh) .wb)

/-- `\b(NY|…|WY)\b\s*$` (case-insensitive) -/
def stateEndPat : RE :=
  .cat .wb (.cat (altsLiti stateCodes) (.cat .wb (.cat (.starG wsC) .eos)))

/-- `\b(inc|llc|ltd|corp|company|co\.?)\b` (case-insensitive) -/
def genericWordsPat : RE :=
  .cat .wb (.cat (alts [liti "inc", liti "llc", liti "ltd", liti "corp", liti "company",
    .cat (liti "co") (optG (chC '.'))]) .wb)

/-- `[^\w\s&'.-]+` -/
def punctRunPat : RE :=
  plusG (.cls (fun c =>
    !(isWordCh c || isSpaceJS c || c == '&' || c == '\'' || c == '.' || c == '-')))

/-- `[-_]+` -/
def dashRunPat : RE := plusG (.cls (fun c => c == '-' || c == '_'))

/-- `normalizeMerchant` (anonymizer.ts). -/
def normalizeMerchant (o : AnonymizerOptions) (cleanedDesc : String)
    (report : Option RemovalReport) : String × Option RemovalReport :=
  if isFalsy cleanedDesc then ("Unknown", report)
  else
    let original := cleanedDesc
    let st := applyCustomRemovals o cleanedDesc report
    let s := st.1
    let s := jsReplaceOnce payModePat "" s
    let s := jsReplaceOnce railModePat "" s
    let s := jsReplaceOnce onlineModePat "" s
    let s := jsReplaceAll junkCodesPat "" s
    let s := jsReplaceAll descDatePat "" s
    let s := jsReplaceAll decimalNumPat "" s
    let s := jsReplaceAll storeNumPat "" s
    let s := jsReplaceAll num2Pat "" s
    let s := jsReplaceAll transferToPhonePat "Mobile Payment" s
    let s := jsReplaceAll transferFromPhonePat "Mobile Transfer" s
    let s := jsReplaceAll transferToPat "Payment" s
    let s := jsReplaceAll transferFromPat "Incoming Transfer" s
    let s := jsReplaceAll transferBarePat "Transfer" s
    let s := jsReplaceAll singleCapPat "" s
    let s := jsReplaceAll stateEndPat "" s
    let s := jsReplaceAll genericWordsPat "" s
    let s := jsReplaceAll punctRunPat " " s
    let s := jsReplaceAll dashRunPat " " s
    let s := trimJS (collapseWS s)
    if isFalsy s then ("Unknown", st.2)
    else
      let out := trimJS (titleCaseJS s)
      let rep :=
        if !isFalsy out && out ≠ original then
          st.2.map (fun r => { r with merchantNormalized := r.merchantNormalized + 1 })
        else st.2
      (out, rep)

/-! ### `categorizeTransaction` (anonymizer.ts) -/

def subSearch (l : List String) : RE := alts (l.map lit)

def categoryRules : List (RE × String × ℚ) :=
  [ (subSearch ["netflix"], "Subscriptions: Streaming", 9 / 10),
    (subSearch ["spotify"], "Subscriptions: Streaming", 9 / 10),
    (.alt (.cat (lit "amazon") (.cat (plusG wsC) (lit "prime")))
          (.cat (lit "prime") (.cat (plusG wsC) (lit "video"))),
      "Subscriptions: Membership", 9 / 10),
    (alts [.cat (lit "apple.com") (.cat (chC '/') (lit "bill")),
           .cat (lit "apple") (.cat (plusG wsC) (lit "services")), lit "itunes"],
      "Subscriptions: Digital", 9 / 10),
    (alts [.cat (lit "google") (.cat (plusG wsC) (.cat (optG (chC '*')) (lit "storage"))),
           .cat (lit "google") (.cat (plusG wsC) (lit "one")),
           .cat (lit "google") (.cat (plusG wsC) (lit "services"))],
      "Subscriptions: Digital", 9 / 10),
    (.alt (.cat (lit "microsoft") (.cat (plusG wsC) (lit "365")))
          (.cat (lit "office") (.cat (plusG wsC) (lit "365"))),
      "Subscriptions: SaaS", 9 / 10),
    (subSearch ["adobe"], "Subscriptions: SaaS", 9 / 10),
    (subSearch ["payroll", "salary", "direct deposit", "paychex", "adp", "payroll dep"],
      "Income: Salary", 85 / 100),
    (subSearch ["interest", "dividend", "distribution", "capital gain"],
      "Income: Investment", 8 / 10),
    (subSearch ["refund", "reversal", "chargeback", "reimb"], "Income: Refund", 75 / 100),
    (subSearch ["monthly fee", "service fee", "maintenance fee", "overdraft", "nsf",
      "finance charge", "late fee"], "Fees", 8 / 10),
    (subSearch ["credit card payment", "cc payment", "loan payment", "mortgage payment"],
      "Payments", 7 / 10),
    (subSearch ["transfer", "ach", "wire", "zelle", "venmo", "cash app", "paypal"],
      "Transfer", 65 / 100),
    (subSearch ["atm", "cash withdrawal"], "Cash/ATM", 7 / 10),
    (subSearch ["grocery", "supermarket", "market", "whole foods", "trader joe", "costco"],
      "Groceries", 75 / 100),
    (subSearch ["walmart", "target", "best buy", "home depot", "lowes"],
      "Shopping: Retail", 7 / 10),
    (subSearch ["restaurant", "cafe", "coffee", "starbucks", "dunkin", "pizza",
      "doordash", "ubereats", "grubhub"], "Dining", 75 / 100),
    (subSearch ["uber", "lyft", "taxi", "transit", "metro", "train", "bus"],
      "Transport", 7 / 10),
    (.cat (alts [lit "gas", lit "fuel", lit "shell", lit "chevron", lit "exxon", lit "bp"]) .wb,
      "Fuel", 75 / 100),
    (subSearch ["rent", "mortgage", "landlord", "property mgmt"], "Housing", 7 / 10),
    (subSearch ["electric", "water", "utility", "internet", "comcast", "verizon",
      "att", "t-mobile", "phone bill"], "Bills: Utilities", 7 / 10),
    (subSearch ["insurance", "geico", "progressive", "state farm", "premium"],
      "Bills: Insurance", 7 / 10),
    (subSearch ["medical", "pharmacy", "clinic", "hospital", "dental", "vision"],
      "Healthcare", 75 / 100),
    (subSearch ["subscription", "membership", "recurring"], "Subscriptions", 6 / 10),
    (subSearch ["education", "tuition", "school", "university", "course"],
      "Education", 7 / 10) ]

/-- `categorizeTransaction` (anonymizer.ts): first matching rule wins on the
case-folded concatenation of raw description, cleaned description, and
merchant. -/
def categorizeTransaction (rawDesc cleanedDesc merchant : String) : String × ℚ :=
  let text := toLowerStr (rawDesc ++ " " ++ cleanedDesc ++ " " ++ merchant)
  match categoryRules.find? (fun r => jsTest r.1 text) with
  | some r => r.2
  | none => ("Other", 2 / 5)

/-! ### `processRows` (anonymizer.ts) -/

inductive Inference where
  | explicit | derived_from_balance | derived_from_desc | fallback
deriving DecidableEq, Repr

structure SanitizedTransaction where
  date : String
  merchant : String
  description : String
  category : String
  categoryConfidence : ℚ
  amount : JNum
  type : TxType
  inferenceSource : Inference
deriving DecidableEq, Repr

def columnTypeStr : ColumnType → String
  | .date => "date"
  | .amount => "amount"
  | .debit => "debit"
  | .credit => "credit"
  | .balance => "balance"
  | .description => "description"
  | .type => "type"
  | .unknown => "unknown"
  | .metadata => "metadata"

def inferenceStr : Inference → String
  | .explicit => "explicit"
  | .derived_from_balance => "derived_from_balance"
  | .derived_from_desc => "derived_from_desc"
  | .fallback => "fallback"

structure SanitizedMetadata where
  sanitized : Bool
  originalRowCount : Nat
  sanitizedRowCount : Nat
  detectedColumns : List (String × ColumnAnalysis)
  detectedColumnsList : List ColumnAnalysis
  rowOrder : RowOrder
  directionStrategy : DirectionStrategy
  directionConfidence : ℚ
  inferenceSummary : List (String × Nat)
  skipSummary : List (String × Nat)
  rowsWithBalance : Nat
  rowsWithAmount : Nat
  rowsWithDebitCredit : Nat
  removalReport : RemovalReport
deriving DecidableEq, Repr

structure SanitizedData where
  metadata : SanitizedMetadata
  transactions : List SanitizedTransaction
deriving DecidableEq, Repr

/-- Column indices and dialect facts shared by every row of one run
(`findIndex` results; `dateIdx` is total because processing fails first
when no date column exists). -/
structure RowCtx where
  opts : AnonymizerOptions
  dateIdx : Nat
  descIdx : Option Nat
  amountIdx : Option Nat
  debitIdx : Option Nat
  creditIdx : Option Nat
  balanceIdx : Option Nat
  typeIdx : Option Nat
  rowOrder : RowOrder
deriving Repr

structure LoopState where
  report : RemovalReport
  skip : List (String × Nat)
  lastValidBalance : Option ℚ
  recentAbsDeltas : List ℚ
  txs : List (Nat × SanitizedTransaction)
  balsCorr : List JNum
  amtsCorr : List JNum
deriving Repr

def insertSorted (x : ℚ) : List ℚ → List ℚ
  | [] => [x]
  | y :: tl => if x ≤ y then x :: y :: tl else y :: insertSorted x tl

def sortAsc (xs : List ℚ) : List ℚ := xs.foldr insertSorted []

/-- The `median` helper inside `processRows`. -/
def medianJS (xs : List ℚ) : ℚ :=
  if xs.length = 0 then 0
  else
    let s := sortAsc xs
    let mid := xs.length / 2
    if xs.length % 2 = 1 then s.getD mid 0
    else (s.getD (mid - 1) 0 + s.getD mid 0) / 2

/-- Result of the per-row amount-resolution stages. -/
structure AmountRes where
  amount : JNum
  type : TxType
  inference : Inference
  lastValidBalance : Option ℚ
  recentAbsDeltas : List ℚ
  skip : List (String × Nat)
deriving Repr

/-- The balance-delta primary logic of the row loop. -/
def balanceStage (ctx : RowCtx) (st : LoopState) (row : List String) (rawDesc : String) :
    AmountRes :=
  let base : AmountRes :=
    ⟨some 0, TxType.expense, Inference.fallback,
     st.lastValidBalance, st.recentAbsDeltas, st.skip⟩
  match ctx.balanceIdx with
  | none => base
  | some bIdx =>
    match cleanCurrency (cellAt row bIdx) with
    | none => base
    | some cb =>
      let looksLikeSummary := jsTest balanceSummaryPat rawDesc
      match st.lastValidBalance with
      | none => { base with lastValidBalance := some cb }
      | some lvb =>
        let delta0 := cb - lvb
        let delta := if ctx.rowOrder = RowOrder.desc then -delta0 else delta0
        let absDelta := |delta|
        let recentMed := medianJS st.recentAbsDeltas
        let isImplausible :=
          looksLikeSummary ||
          (decide (0 < recentMed) && decide (recentMed * 50 < absDelta) &&
           decide ((2500 : ℚ) < absDelta))
        if isImplausible then
          { base with skip := recordBump st.skip "suspect_balance_row"
                      lastValidBalance := some cb }
        else if absDelta > 1 / 100 then
          let hist := st.recentAbsDeltas ++ [absDelta]
          let hist := if hist.length > 15 then hist.drop 1 else hist
          ⟨some delta, (if 0 < delta then TxType.income else TxType.expense),
           Inference.derived_from_balance, some cb, hist, st.skip⟩
        else { base with lastValidBalance := some cb }

/-- The explicit-column fallback logics (split columns, then single amount
column), entered only when the resolved amount is still exactly `0`. -/
def explicitStage (ctx : RowCtx) (row : List String) (b : AmountRes) : AmountRes :=
  if !jEq b.amount (some 0) then b
  else
    match ctx.debitIdx, ctx.creditIdx with
    | some dIdx, some cIdx =>
      let debitVal := jAbs (cleanCurrency (cellAt row dIdx))
      let creditVal := jAbs (cleanCurrency (cellAt row cIdx))
      if jGt creditVal (some 0) then
        { b with amount := creditVal, type := TxType.income, inference := Inference.explicit }
      else if jGt debitVal (some 0) then
        { b with amount := jNeg debitVal, type := TxType.expense, inference := Inference.explicit }
      else b
    | _, _ =>
      match ctx.amountIdx with
      | none => b
      | some aIdx =>
        let fa := cleanCurrency (cellAt row aIdx)
        let typeDir :=
          match ctx.typeIdx with
          | some tIdx => mapTypeToDirection (cellAt row tIdx)
          | none => none
        match typeDir with
        | some td =>
          if jNe fa (some 0) then
            { b with amount := (if td = TxType.expense then jNeg (jAbs fa) else jAbs fa)
                     type := td, inference := Inference.explicit }
          else { b with amount := fa }
        | none =>
          if jLt fa (some 0) then
            { b with amount := fa, type := TxType.expense, inference := Inference.explicit }
          else if jGt fa (some 0) then
            { b with amount := fa, type := TxType.income, inference := Inference.explicit }
          else { b with amount := fa }

/-- `rawDesc` of one row. -/
def rowRawDesc (ctx : RowCtx) (row : List String) : String :=
  match ctx.descIdx with
  | some d => cellAt row d
  | none => "Unknown"

/-- Sanitized description plus report for one row. -/
def rowSan (ctx : RowCtx) (st : LoopState) (row : List String) :
    String × Option RemovalReport :=
  sanitizeDescription ctx.opts (rowRawDesc ctx row) (some st.report)

/-- Normalized merchant plus report for one row. -/
def rowMer (ctx : RowCtx) (st : LoopState) (row : List String) :
    String × Option RemovalReport :=
  normalizeMerchant ctx.opts (rowSan ctx st row).1 (rowSan ctx st row).2

/-- Resolved amount of one row: balance delta first, then explicit columns. -/
def rowAmountRes (ctx : RowCtx) (st : LoopState) (row : List String) : AmountRes :=
  explicitStage ctx row (balanceStage ctx st row (rowRawDesc ctx row))

/-- The balance cell tracked for correlation (`0` when no balance column). -/
def rowBalCell (ctx : RowCtx) (row : List String) : JNum :=
  match ctx.balanceIdx with
  | some bIdx => cleanCurrency (cellAt row bIdx)
  | none => some 0

/-- The transaction pushed for one emitting row. -/
def rowTxOf (ctx : RowCtx) (st : LoopState) (row : List String) (dateStr : String) :
    SanitizedTransaction :=
  let cleanDesc := (rowSan ctx st row).1
  let merchant := (rowMer ctx st row).1
  let cat := categorizeTransaction (rowRawDesc ctx row) cleanDesc merchant
  let e := rowAmountRes ctx st row
  { date := dateStr, merchant := merchant
    description := if ctx.opts.ultraClean then merchant else cleanDesc
    category := cat.1, categoryConfidence := cat.2
    amount := e.amount
    type := if jGt e.amount (some 0) then TxType.income else TxType.expense
    inferenceSource := e.inference }

/-- One iteration of the row loop (`for (let i = 1; i < rows.length; i++)`). -/
def processRowStep (ctx : RowCtx) (i : Nat) (st : LoopState) (row : List String) : LoopState :=
  if row.length < 2 then st
  else
    match parseDateString (cellAt row ctx.dateIdx) with
    | none => { st with skip := recordBump st.skip "bad_date" }
    | some dateStr =>
      let report2 := (rowMer ctx st row).2.getD st.report
      let e := rowAmountRes ctx st row
      let st' : LoopState :=
        { report := report2, skip := e.skip, lastValidBalance := e.lastValidBalance,
          recentAbsDeltas := e.recentAbsDeltas, txs := st.txs,
          balsCorr := st.balsCorr, amtsCorr := st.amtsCorr }
      if jNe e.amount (some 0) then
        { st' with
          txs := st.txs ++ [(i, rowTxOf ctx st row dateStr)]
          balsCorr := st.balsCorr ++ [rowBalCell ctx row]
          amtsCorr := st.amtsCorr ++ [e.amount] }
      else st'

def processLoop (ctx : RowCtx) : Nat → List (List String) → LoopState → LoopState
  | _, [], st => st
  | i, r :: rs, st => processLoop ctx (i + 1) rs (processRowStep ctx i st r)

def initReport (o : AnonymizerOptions) : RemovalReport :=
  { redactions := []
    idTokensRemoved := 0
    merchantNormalized := 0
    customRemoved := 0
    customTermsCount := (o.customRemoveTerms.filter (fun t => !isFalsy t)).length
    ultraCleanApplied := o.ultraClean }

def initState (o : AnonymizerOptions) : LoopState :=
  ⟨initReport o, [], none, [], [], [], []⟩

def notEnoughDataMsg : String :=
  "Not enough data to process. " ++
  "Please upload a file with at least a header row and one transaction row. " ++
  "This tool is designed for financial statements like bank exports, credit card statements, or transaction histories."

def noDateColumnMsg (columnAnalysis : List ColumnAnalysis) : String :=
  let detected := columnAnalysis.filter (fun c => c.columnType ≠ ColumnType.unknown)
  let detectedTypes :=
    String.intercalate ", "
      (detected.map (fun c => columnTypeStr c.columnType ++ " (column " ++
        natToStr (c.columnIndex + 1) ++ ")"))
  let helpText :=
    if detectedTypes ≠ "" then
      "We detected: " ++ detectedTypes ++
      ". However, financial data must include dates for each transaction."
    else "We couldn't identify any standard financial data columns in your file."
  "This doesn't appear to be financial data. " ++
  "We couldn't find a Date column. " ++
  helpText ++ " " ++
  "Financial data should have columns like: Date, Description, Amount (or Debit/Credit), and optionally Balance. " ++
  "Please upload a bank statement, credit card statement, or transaction history (CSV, XLSX, or PDF format)."

def noMonetaryColumnMsg (columnAnalysis : List ColumnAnalysis) : String :=
  let dateCol := columnAnalysis.find? (fun c => c.columnType = ColumnType.date)
  let descCol := columnAnalysis.find? (fun c => c.columnType = ColumnType.description)
  let base := "Financial statements need monetary values (amounts, debits/credits, or balances)."
  let helpText :=
    if dateCol.isSome && descCol.isSome then
      "We found dates and descriptions, but couldn't find any monetary value columns. " ++ base
    else if dateCol.isSome then
      "We found dates, but couldn't find descriptions or monetary values. " ++ base
    else base
  "This doesn't appear to be financial data. " ++
  "We couldn't find any monetary value columns (Amount, Debit/Credit, or Balance). " ++
  helpText ++ " " ++
  "Financial data should have columns like: Date, Description, Amount (or Debit/Credit), and optionally Balance. " ++
  "Please ensure your file includes transaction amounts in a clear column format."

/-- Shaping, column detection, the three fatal-error checks, and the row
context; everything before the row loop of `processRows`. -/
def processPrep (o : AnonymizerOptions) (inputRows : List (List String)) :
    Except String (List (List String) × List ColumnAnalysis × RowCtx) :=
  let rows := shapeRows inputRows
  if rows.length < 2 then Except.error notEnoughDataMsg
  else
    let columnAnalysis := detectColumnsWithContext rows
    let amountIdx := columnAnalysis.findIdx? (fun c => c.columnType = ColumnType.amount)
    let debitIdx := columnAnalysis.findIdx? (fun c => c.columnType = ColumnType.debit)
    let creditIdx := columnAnalysis.findIdx? (fun c => c.columnType = ColumnType.credit)
    let balanceIdx := columnAnalysis.findIdx? (fun c => c.columnType = ColumnType.balance)
    let typeIdx := columnAnalysis.findIdx? (fun c => c.columnType = ColumnType.type)
    match columnAnalysis.findIdx? (fun c => c.columnType = ColumnType.date) with
    | none => Except.error (noDateColumnMsg columnAnalysis)
    | some dIdx =>
      if amountIdx.isNone && debitIdx.isNone && creditIdx.isNone && balanceIdx.isNone then
        Except.error (noMonetaryColumnMsg columnAnalysis)
      else
        let descIdx := columnAnalysis.findIdx? (fun c => c.columnType = ColumnType.description)
        let isoDates := (rows.drop 1).map (fun r => parseDateString (cellAt r dIdx))
        let rowOrder := inferRowOrderFromDates isoDates
        Except.ok (rows, columnAnalysis,
          ⟨o, dIdx, descIdx, amountIdx, debitIdx, creditIdx, balanceIdx, typeIdx, rowOrder⟩)

/-- The index-tagged transactions emitted by the row loop (empty when
processing fails). -/
def emittedTagged (o : AnonymizerOptions) (inputRows : List (List String)) :
    List (Nat × SanitizedTransaction) :=
  match processPrep o inputRows with
  | Except.error _ => []
  | Except.ok (rows, _, ctx) => (processLoop ctx 1 (rows.drop 1) (initState o)).txs

/-- Metadata assembly after the row loop. -/
def buildResult (rows : List (List String)) (columnAnalysis : List ColumnAnalysis)
    (ctx : RowCtx) (fin : LoopState) : SanitizedData :=
  let transactions := fin.txs.map Prod.snd
  let hasSplit := ctx.debitIdx.isSome && ctx.creditIdx.isSome
  let hasType := ctx.typeIdx.isSome && ctx.amountIdx.isSome
  let sampleForSigned := (rows.drop 1).take (min rows.length 25 - 1)
  let hasSignedAmount :=
    match ctx.amountIdx with
    | some aIdx =>
      sampleForSigned.any (fun r =>
        includesStr (cellAt r aIdx) "-" || includesStr (cellAt r aIdx) "(")
    | none => false
  let hasBalance := ctx.balanceIdx.isSome
  let balanceMatchRate : Option ℚ :=
    if hasBalance && transactions.length ≥ 2 then
      some (chooseBalanceOrientation fin.balsCorr fin.amtsCorr (5 / 100)).2
    else none
  let decision := inferDirectionDecision
    ⟨hasSplit, hasType, hasSignedAmount, hasBalance, ctx.rowOrder, balanceMatchRate⟩
  let inferenceSummary :=
    transactions.foldl (fun m t => recordBump m (inferenceStr t.inferenceSource)) []
  let dataRows := rows.length - 1
  let stats :=
    (rows.drop 1).foldl
      (fun (st : Nat × Nat × Nat) r =>
        let wb :=
          match ctx.balanceIdx with
          | some bIdx => if (cleanCurrency (cellAt r bIdx)).isSome then st.1 + 1 else st.1
          | none => st.1
        let wa :=
          match ctx.amountIdx with
          | some aIdx =>
            if (cleanCurrency (cellAt r aIdx)).isSome && !isFalsy (cellAt r aIdx) then
              st.2.1 + 1
            else st.2.1
          | none => st.2.1
        let wdc :=
          match ctx.debitIdx, ctx.creditIdx with
          | some dIdx, some cIdx =>
            if !isFalsy (trimJS (cellAt r dIdx)) || !isFalsy (trimJS (cellAt r cIdx)) then
              st.2.2 + 1
            else st.2.2
          | _, _ => st.2.2
        (wb, wa, wdc))
      (0, 0, 0)
  { metadata :=
      { sanitized := true
        originalRowCount := rows.length
        sanitizedRowCount := transactions.length
        detectedColumns :=
          columnAnalysis.foldl (fun m c => recordSet m (columnTypeStr c.columnType) c) []
        detectedColumnsList := columnAnalysis
        rowOrder := ctx.rowOrder
        directionStrategy := if hasBalance then DirectionStrategy.balance else decision.strategy
        directionConfidence := decision.confidence
        inferenceSummary := inferenceSummary
        skipSummary := fin.skip
        rowsWithBalance := if dataRows > 0 then stats.1 else 0
        rowsWithAmount := if dataRows > 0 then stats.2.1 else 0
        rowsWithDebitCredit := if dataRows > 0 then stats.2.2 else 0
        removalReport := fin.report }
    transactions := transactions }

/-- `processRows` (anonymizer.ts). -/
def processRows (o : AnonymizerOptions) (inputRows : List (List String)) :
    Except String SanitizedData :=
  match processPrep o inputRows with
  | Except.error e => Except.error e
  | Except.ok (rows, columnAnalysis, ctx) =>
    Except.ok (buildResult rows columnAnalysis ctx
      (processLoop ctx 1 (rows.drop 1) (initState o)))

/-! ### `preflightRows` (anonymizer.ts)

The preflight counting calls `.test` on the shared global `PATTERNS`
regexes, whose `lastIndex` persists between calls; a later
`sanitizeDescription` resets the patterns it replaces (global `replace`
leaves `lastIndex` at 0), namely the seven PII patterns when `maskPii` is
on and the locations pattern when `fuzzLocation` is on.  The model threads
those `lastIndex` values explicitly. -/

structure PatState where
  email : Nat
  phone : Nat
  url : Nat
  card : Nat
  ssn : Nat
  address : Nat
  zip : Nat
  location : Nat
deriving Repr

def patState0 : PatState := ⟨0, 0, 0, 0, 0, 0, 0, 0⟩

structure PreflightReport where
  headerColumns : Nat
  sampleRows : Nat
  detectedColumnsList : List ColumnAnalysis
  rowOrder : RowOrder
  likelyDirectionStrategy : DirectionStrategy
  plannedRedactions : List (String × Nat)
  plannedIdRemovals : Nat
  plannedMerchantNormalizations : Nat
  plannedCustomRemovals : List (String × Nat)
  examples : List (String × String × String)
deriving Repr

structure PreAcc where
  pats : PatState
  planned : List (String × Nat)
  plannedId : Nat
  plannedMerch : Nat
  plannedCustom : List (String × Nat)
  examples : List (String × String × String)
deriving Repr

/-- One preflight sample row: the planned-redaction tests in source order,
then the dry sanitization used for merchant/example statistics. -/
def preflightRowStep (o : AnonymizerOptions) (descIdx : Option Nat)
    (acc : PreAcc) (r : List String) : PreAcc :=
  let raw := String.intercalate " " r
  let descRaw := match descIdx with | some d => cellAt r d | none => raw
  let s := descRaw
  let t1 := jsTestG emailPat s acc.pats.email
  let planned := if t1.1 then recordBump acc.planned "email" else acc.planned
  let t2 := jsTestG phonePat s acc.pats.phone
  let planned := if t2.1 then recordBump planned "phone" else planned
  let t3 := jsTestG urlPat s acc.pats.url
  let planned := if t3.1 then recordBump planned "url" else planned
  let t4 := jsTestG cardPat s acc.pats.card
  let planned := if t4.1 then recordBump planned "card" else planned
  let t5 := jsTestG ssnPat s acc.pats.ssn
  let planned := if t5.1 then recordBump planned "ssn" else planned
  let t6 := jsTestG addressPat s acc.pats.address
  let planned := if t6.1 then recordBump planned "address" else planned
  let t7 := jsTestG zipPat s acc.pats.zip
  let planned := if t7.1 then recordBump planned "zip" else planned
  let t8 := jsTestG locationsPat s acc.pats.location
  let planned := if t8.1 then recordBump planned "location" else planned
  let plannedId := if idPats.any (fun p => jsTest p s) then acc.plannedId + 1 else acc.plannedId
  let sanitized := (sanitizeDescription o descRaw none).1
  let merchant := (normalizeMerchant o sanitized none).1
  let plannedMerch :=
    if !isFalsy merchant && merchant ≠ trimJS sanitized then acc.plannedMerch + 1
    else acc.plannedMerch
  let plannedCustom :=
    (activeTerms o).foldl
      (fun m term =>
        let n := reCount (liti term) descRaw
        if n > 0 then recordBump m term n else m)
      acc.plannedCustom
  let examples :=
    if acc.examples.length < 8 && (sanitized ≠ trimJS descRaw || merchant ≠ sanitized) then
      acc.examples ++ [(⟨(trimJS descRaw).data.take 160⟩, ⟨sanitized.data.take 160⟩, merchant)]
    else acc.examples
  let pats : PatState :=
    { email := t1.2, phone := t2.2, url := t3.2, card := t4.2, ssn := t5.2,
      address := t6.2, zip := t7.2, location := t8.2 }
  let pats :=
    if o.maskPii then
      { pats with email := 0, phone := 0, url := 0, card := 0, ssn := 0,
                  address := 0, zip := 0 }
    else pats
  let pats := if o.fuzzLocation then { pats with location := 0 } else pats
  ⟨pats, planned, plannedId, plannedMerch, plannedCustom, examples⟩

/-- `preflightRows` (anonymizer.ts). -/
def preflightRows (o : AnonymizerOptions) (inputRows : List (List String))
    (sampleSizeOpt : Option Nat) : PreflightReport :=
  let rows := shapeRows inputRows
  let sampleSize : Int :=
    max 10 (min ((sampleSizeOpt.getD 100 : Nat) : Int) ((rows.length : Int) - 1))
  let sample := rows.take (1 + sampleSize).toNat
  let detectedColumnsList := detectColumnsWithContext sample
  let dateIdx := detectedColumnsList.findIdx? (fun c => c.columnType = ColumnType.date)
  let amountIdx := detectedColumnsList.findIdx? (fun c => c.columnType = ColumnType.amount)
  let debitIdx := detectedColumnsList.findIdx? (fun c => c.columnType = ColumnType.debit)
  let creditIdx := detectedColumnsList.findIdx? (fun c => c.columnType = ColumnType.credit)
  let balanceIdx := detectedColumnsList.findIdx? (fun c => c.columnType = ColumnType.balance)
  let typeIdx := detectedColumnsList.findIdx? (fun c => c.columnType = ColumnType.type)
  let isoDates :=
    match dateIdx with
    | some dIdx => (sample.drop 1).map (fun r => parseDateString (cellAt r dIdx))
    | none => []
  let rowOrder := inferRowOrderFromDates isoDates
  let hasSplit := debitIdx.isSome && creditIdx.isSome
  let hasType := typeIdx.isSome && amountIdx.isSome
  let hasSignedAmount :=
    match amountIdx with
    | some aIdx =>
      (sample.drop 1).any (fun r =>
        includesStr (cellAt r aIdx) "-" || includesStr (cellAt r aIdx) "(")
    | none => false
  let hasBalance := balanceIdx.isSome
  let decision := inferDirectionDecision
    ⟨hasSplit, hasType, hasSignedAmount, hasBalance, rowOrder, none⟩
  let descIdx := detectedColumnsList.findIdx? (fun c => c.columnType = ColumnType.description)
  let sampleRows := sample.drop 1
  let acc :=
    sampleRows.foldl (preflightRowStep o descIdx)
      ⟨patState0, [], 0, 0, [], []⟩
  { headerColumns := (rows.headD []).length
    sampleRows := sampleRows.length
    detectedColumnsList := detectedColumnsList
    rowOrder := rowOrder
    likelyDirectionStrategy := if hasBalance then DirectionStrategy.balance else decision.strategy
    plannedRedactions := acc.planned
    plannedIdRemovals := acc.plannedId
    plannedMerchantNormalizations := acc.plannedMerch
    plannedCustomRemovals := acc.plannedCustom
    examples := acc.examples }

/-! ### `formatData` (anonymizer.ts) -/

inductive DetailLevel where
  | minimal | standard | detailed | debug
deriving DecidableEq, Repr

inductive ExportProfile where
  | ai_safe | audit | debug
deriving DecidableEq, Repr

structure FormatOpts where
  maxRows : Option Int := none
  highlightTerm : Option String := none
  detailLevel : Option DetailLevel := none
  profile : Option ExportProfile := none
deriving Repr

def jAdd (a b : JNum) : JNum :=
  match a, b with
  | some x, some y => some (x + y)
  | _, _ => none

def jDiv (a b : JNum) : JNum :=
  match a, b with
  | some x, some y => if y = 0 then none else some (x / y)
  | _, _ => none

def jGe (a b : JNum) : Bool :=
  match a, b with
  | some x, some y => decide (y ≤ x)
  | _, _ => false

def pad2 (n : Nat) : String := if n < 10 then "0" ++ natToStr n else natToStr n

/-- JS `Number.prototype.toFixed(2)`: nearest hundredth, ties toward the
larger value, sign taken from the operand; NaN renders as `"NaN"`. -/
def toFixed2J (a : JNum) : String :=
  match a with
  | none => "NaN"
  | some q =>
    let sgn := if q < 0 then "-" else ""
    let m : Nat := (Int.floor (|q| * 100 + 1 / 2)).toNat
    sgn ++ natToStr (m / 100) ++ "." ++ pad2 (m % 100)

/-- Decimal digits of the fractional part (terminates on the decimal
rationals produced by the pipeline). -/
def fracDigitsQ : Nat → ℚ → List Char
  | 0, _ => []
  | Nat.succ fuel, r =>
    if r = 0 then []
    else
      let r10 := r * 10
      let d := (Int.floor r10).toNat
      Char.ofNat (48 + d) :: fracDigitsQ fuel (r10 - (d : ℚ))

/-- JS number-to-string on the (finite-decimal) values serialized here. -/
def ratDecimalStr (q : ℚ) : String :=
  let sgn := if q < 0 then "-" else ""
  let aq : ℚ := |q|
  let ip : Nat := (Int.floor aq).toNat
  let ds := fracDigitsQ 30 (aq - (ip : ℚ))
  sgn ++ natToStr ip ++ (if ds.isEmpty then "" else "." ++ (⟨ds⟩ : String))

/-- `JSON.stringify` of a number (`NaN` serializes as `null`). -/
def jnumToJson (a : JNum) : String :=
  match a with
  | none => "null"
  | some q => ratDecimalStr q

def escapeJsonCh (c : Char) : List Char :=
  if c = '"' then ['\\', '"']
  else if c = '\\' then ['\\', '\\']
  else if c.toNat = 10 then ['\\', 'n']
  else if c.toNat = 13 then ['\\', 'r']
  else if c.toNat = 9 then ['\\', 't']
  else [c]

def jsonStr (s : String) : String :=
  "\"" ++ (⟨s.data.foldr (fun c acc => escapeJsonCh c ++ acc) []⟩ : String) ++ "\""

/-- HTML escaping used before highlight injection (`&`, `<`, `>`, `"`). -/
def escapeHtml4 (s : String) : String :=
  ⟨s.data.foldr
    (fun c acc =>
      (if c = '&' then "&amp;".data
       else if c = '<' then "&lt;".data
       else if c = '>' then "&gt;".data
       else if c = '"' then "&quot;".data
       else [c]) ++ acc) []⟩

/-- The three-entity escaping used by `fmtVal` when not highlighting. -/
def escapeHtml3 (s : String) : String :=
  ⟨s.data.foldr
    (fun c acc =>
      (if c = '&' then "&amp;".data
       else if c = '<' then "&lt;".data
       else if c = '>' then "&gt;".data
       else [c]) ++ acc) []⟩

def markPre : String := "<mark class=\"bg-brand-500/30 text-white rounded-sm px-0.5\">"

def markSuf : String := "</mark>"

/-- The `hl` helper of `formatData`. -/
def hlFn (term : String) (text : String) : String :=
  if isFalsy term || isFalsy text then text
  else jsReplaceAllF (liti term) (fun m => markPre ++ m ++ markSuf) (escapeHtml4 text)

/-- The `fmtVal` helper of `formatData`. -/
def fmtVal (hlTerm : Option String) (v : String) (applyHl : Bool) : String :=
  match hlTerm with
  | some t =>
    if !isFalsy t then (if applyHl then hlFn t v else escapeHtml3 v) else v
  | none => v

def txTypeStr : TxType → String
  | .income => "income"
  | .expense => "expense"

def displayDesc (t : SanitizedTransaction) : String :=
  if !isFalsy t.merchant && t.merchant ≠ "Unknown" then t.merchant else t.description

def jsonObjLines (fields : List String) : String :=
  "  \x7b\n" ++ String.intercalate ",\n" (fields.map (fun f => "    " ++ f)) ++ "\n  \x7d"

def jsonArr (items : List String) : String :=
  "[\n" ++ String.intercalate ",\n" items ++ "\n]"

def jsonFieldsFor (dl : DetailLevel) (t : SanitizedTransaction) : List String :=
  match dl with
  | .minimal =>
    ["\"date\": " ++ jsonStr t.date,
     "\"description\": " ++ jsonStr (displayDesc t),
     "\"amount\": " ++ jnumToJson t.amount]
  | .standard =>
    ["\"date\": " ++ jsonStr t.date,
     "\"merchant\": " ++ jsonStr t.merchant,
     "\"description\": " ++ jsonStr t.description,
     "\"amount\": " ++ jnumToJson t.amount]
  | .detailed =>
    ["\"date\": " ++ jsonStr t.date,
     "\"merchant\": " ++ jsonStr t.merchant,
     "\"category\": " ++ jsonStr t.category,
     "\"description\": " ++ jsonStr t.description,
     "\"amount\": " ++ jnumToJson t.amount]
  | .debug =>
    ["\"date\": " ++ jsonStr t.date,
     "\"merchant\": " ++ jsonStr t.merchant,
     "\"category\": " ++ jsonStr t.category,
     "\"description\": " ++ jsonStr t.description,
     "\"amount\": " ++ jnumToJson t.amount,
     "\"type\": " ++ jsonStr (txTypeStr t.type),
     "\"inferenceSource\": " ++ jsonStr (inferenceStr t.inferenceSource),
     "\"categoryConfidence\": " ++ jnumToJson (some t.categoryConfidence)]

def escCsvQuotes (s : String) : String :=
  ⟨s.data.foldr (fun c acc => (if c = '"' then ['"', '"'] else [c]) ++ acc) []⟩

def csvHeaderFor : DetailLevel → String
  | .minimal => "Date,Description,Amount\n"
  | .standard => "Date,Merchant,Description,Amount\n"
  | .detailed => "Date,Merchant,Category,Description,Amount\n"
  | .debug => "Date,Merchant,Category,Description,Amount,Type,Source,CategoryConfidence\n"

def csvRowFor (hl : Option String) (dl : DetailLevel) (t : SanitizedTransaction) : String :=
  match dl with
  | .minimal =>
    "\"" ++ fmtVal hl t.date false ++ "\",\"" ++
    escCsvQuotes (fmtVal hl (displayDesc t) true) ++ "\"," ++ toFixed2J t.amount
  | .standard =>
    "\"" ++ fmtVal hl t.date false ++ "\",\"" ++
    escCsvQuotes (fmtVal hl t.merchant true) ++ "\",\"" ++
    escCsvQuotes (fmtVal hl t.description true) ++ "\"," ++ toFixed2J t.amount
  | .detailed =>
    "\"" ++ fmtVal hl t.date false ++ "\",\"" ++
    escCsvQuotes (fmtVal hl t.merchant true) ++ "\",\"" ++
    escCsvQuotes (fmtVal hl t.category true) ++ "\",\"" ++
    escCsvQuotes (fmtVal hl t.description true) ++ "\"," ++ toFixed2J t.amount
  | .debug =>
    "\"" ++ fmtVal hl t.date false ++ "\",\"" ++
    escCsvQuotes (fmtVal hl t.merchant true) ++ "\",\"" ++
    escCsvQuotes (fmtVal hl t.category true) ++ "\",\"" ++
    escCsvQuotes (fmtVal hl t.description true) ++ "\"," ++ toFixed2J t.amount ++ "," ++
    txTypeStr t.type ++ "," ++ inferenceStr t.inferenceSource ++ "," ++
    toFixed2J (some t.categoryConfidence)

def mdHeaderFor : DetailLevel → String
  | .minimal => "| Date | Description | Amount |\n|---|---|---:|\n"
  | .standard => "| Date | Merchant | Description | Amount |\n|---|---|---|---:|\n"
  | .detailed => "| Date | Merchant | Category | Description | Amount |\n|---|---|---|---|---:|\n"
  | .debug => "| Date | Merchant | Category | Description | Amount | Type | Source | Conf |\n|---|---|---|---|---:|---|---|---:|\n"

def toUpperStr (s : String) : String := ⟨s.data.map toUpperCh⟩

def mdRowFor (hl : Option String) (dl : DetailLevel) (t : SanitizedTransaction) : String :=
  match dl with
  | .minimal =>
    "| " ++ fmtVal hl t.date false ++ " | " ++ fmtVal hl (displayDesc t) true ++ " | " ++
    toFixed2J t.amount ++ " |"
  | .standard =>
    "| " ++ fmtVal hl t.date false ++ " | " ++ fmtVal hl t.merchant true ++ " | " ++
    fmtVal hl t.description true ++ " | " ++ toFixed2J t.amount ++ " |"
  | .detailed =>
    "| " ++ fmtVal hl t.date false ++ " | " ++ fmtVal hl t.merchant true ++ " | " ++
    fmtVal hl t.category true ++ " | " ++ fmtVal hl t.description true ++ " | " ++
    toFixed2J t.amount ++ " |"
  | .debug =>
    "| " ++ fmtVal hl t.date false ++ " | " ++ fmtVal hl t.merchant true ++ " | " ++
    fmtVal hl t.category true ++ " | " ++ fmtVal hl t.description true ++ " | " ++
    toFixed2J t.amount ++ " | **" ++ toUpperStr (txTypeStr t.type) ++ "** | " ++
    inferenceStr t.inferenceSource ++ " | " ++ toFixed2J (some t.categoryConfidence) ++ " |"

def textRowFor (hl : Option String) (dl : DetailLevel) (t : SanitizedTransaction) : String :=
  match dl with
  | .minimal =>
    fmtVal hl t.date false ++ " | " ++ fmtVal hl (displayDesc t) true ++ " | " ++
    toFixed2J t.amount
  | .standard =>
    fmtVal hl t.date false ++ " | " ++ fmtVal hl t.merchant true ++ " | " ++
    fmtVal hl t.description true ++ " | " ++ toFixed2J t.amount
  | .detailed =>
    fmtVal hl t.date false ++ " | " ++ fmtVal hl t.merchant true ++ " | " ++
    fmtVal hl t.category true ++ " | " ++ fmtVal hl t.description true ++ " | " ++
    toFixed2J t.amount
  | .debug =>
    fmtVal hl t.date false ++ " | " ++ fmtVal hl t.merchant true ++ " | " ++
    fmtVal hl t.category true ++ " | " ++ fmtVal hl t.description true ++ " | " ++
    toFixed2J t.amount ++ " | " ++ txTypeStr t.type ++ " | " ++
    inferenceStr t.inferenceSource ++ " | conf:" ++ toFixed2J (some t.categoryConfidence)

/-! #### The storyline (monthly narrative) encoding -/

structure MonthAgg where
  month : String
  income : JNum
  expense : JNum
  merchants : List (String × (JNum × Nat))
  largestInflow : Option SanitizedTransaction
  largestOutflow : Option SanitizedTransaction
  dailySpend : List (String × JNum)
deriving Repr

def monthAgg0 (month : String) : MonthAgg := ⟨month, some 0, some 0, [], none, none, []⟩

def recordGetJ (m : List (String × JNum)) (k : String) : JNum :=
  ((m.find? (fun p => p.1 = k)).map Prod.snd).getD (some 0)

def recordGetMer (m : List (String × (JNum × Nat))) (k : String) : JNum × Nat :=
  ((m.find? (fun p => p.1 = k)).map Prod.snd).getD (some 0, 0)

def storyMerchant (t : SanitizedTransaction) : String :=
  if !isFalsy t.merchant && t.merchant ≠ "Unknown" then t.merchant else t.description

def storyStep (byMonth : List (String × MonthAgg)) (t : SanitizedTransaction) :
    List (String × MonthAgg) :=
  let m0 : String := ⟨t.date.data.take 7⟩
  let month := if isFalsy m0 then "unknown" else m0
  let b := (((byMonth.find? (fun p => p.1 = month)).map Prod.snd).getD (monthAgg0 month))
  let merchant := storyMerchant t
  let b :=
    if jGt t.amount (some 0) then
      let li :=
        match b.largestInflow with
        | none => some t
        | some cur => if jGt t.amount cur.amount then some t else some cur
      { b with income := jAdd b.income t.amount, largestInflow := li }
    else
      let ab := jAbs t.amount
      let lo :=
        match b.largestOutflow with
        | none => some t
        | some cur => if jGt ab (jAbs cur.amount) then some t else some cur
      let prev := recordGetMer b.merchants merchant
      let day := if isFalsy t.date then "unknown" else t.date
      { b with expense := jAdd b.expense ab
               largestOutflow := lo
               merchants := recordSet b.merchants merchant (jAdd prev.1 ab, prev.2 + 1)
               dailySpend := recordSet b.dailySpend day (jAdd (recordGetJ b.dailySpend day) ab) }
  recordSet byMonth month b

def insertAscStr (x : String) : List String → List String
  | [] => [x]
  | y :: tl => if listLtJS y.data x.data then y :: insertAscStr x tl else x :: y :: tl

def sortStrsJS (xs : List String) : List String := xs.foldl (fun acc x => insertAscStr x acc) []

/-- Stable descending insertion by a `JNum` key (models the
`sort((a, b) => b - a)` calls on the aggregates). -/
def insertDescBy {α : Type} (key : α → JNum) (x : α) : List α → List α
  | [] => [x]
  | y :: tl => if jGt (key x) (key y) then x :: y :: tl else y :: insertDescBy key x tl

def sortDescBy {α : Type} (key : α → JNum) (xs : List α) : List α :=
  xs.foldl (fun acc x => insertDescBy key x acc) []

def monthNamesJS : List String :=
  ["January", "February", "March", "April", "May", "June",
   "July", "August", "September", "October", "November", "December"]

/-- `new Date(iso + 'T00:00:00').toLocaleDateString('en-US', { month:
'long', day: 'numeric' })`. -/
def monthDayStr (iso : String) : String :=
  match jsParseDate iso with
  | some _ =>
    match iso.data with
    | [_, _, _, _, '-', m1, m2, '-', d1, d2] =>
      let m := digitsToNat [m1, m2]
      let d := digitsToNat [d1, d2]
      (monthNamesJS.getD (m - 1) "") ++ " " ++ natToStr d
    | _ => "Invalid Date"
  | none => "Invalid Date"

def splitOnDash (s : String) : List String := s.splitOn "-"

def storylineMonth (byMonth : List (String × MonthAgg)) (monthKey : String) : List String :=
  match (byMonth.find? (fun p => p.1 = monthKey)).map Prod.snd with
  | none => []
  | some b =>
    let parts := splitOnDash monthKey
    let year := parts.getD 0 ""
    let monthNum := parts.getD 1 ""
    let mDigits := monthNum.data.takeWhile isDigitCh
    let monthName :=
      if mDigits.isEmpty then monthNum
      else
        match monthNamesJS.get? (digitsToNat mDigits - 1) with
        | some nm => nm
        | none => monthNum
    let net := jSub b.income b.expense
    let l0 := ["## " ++ monthName ++ " " ++ year ++ "\n"]
    let l1 :=
      if jGt b.income (some 0) && jGt b.expense (some 0) then
        let netVerb :=
          if jGe net (some 0) then "leaving you with a positive balance of"
          else "putting you in the red by"
        ["You earned $" ++ toFixed2J b.income ++ " this month and spent $" ++
         toFixed2J b.expense ++ ", " ++ netVerb ++ " $" ++ toFixed2J (jAbs net) ++ ".\n"]
      else if jGt b.expense (some 0) then
        ["This month you spent $" ++ toFixed2J b.expense ++ ".\n"]
      else if jGt b.income (some 0) then
        ["You received $" ++ toFixed2J b.income ++ " in income this month.\n"]
      else []
    let topMerchants := (sortDescBy (fun p => p.2.1) b.merchants).take 3
    let l2 :=
      match topMerchants with
      | [] => []
      | top1 :: others =>
        let first := ["Most of your spending went to " ++ top1.1 ++ " ($" ++
          toFixed2J top1.2.1 ++ ")"]
        let second :=
          if others.length > 0 then
            [", followed by " ++ String.intercalate " and "
              (others.map (fun p => p.1 ++ " ($" ++ toFixed2J p.2.1 ++ ")"))]
          else []
        first ++ second ++ [".\n"]
    let l3 :=
      match b.largestOutflow with
      | some t =>
        ["Your biggest single expense was " ++ storyMerchant t ++ " for $" ++
         toFixed2J (jAbs t.amount) ++ " on " ++ monthDayStr t.date ++ "."]
      | none => []
    let l4 :=
      match b.largestInflow with
      | some t =>
        [" On the income side, " ++ storyMerchant t ++ " for $" ++ toFixed2J t.amount ++
         " came through on " ++ monthDayStr t.date ++ "."]
      | none => []
    let l5 := ["\n"]
    let l6 :=
      if b.dailySpend.length > 0 then
        let spendDays := b.dailySpend.length
        let avgDaily := jDiv b.expense (some ((max 1 spendDays : Nat) : ℚ))
        match sortDescBy Prod.snd b.dailySpend with
        | busiest :: _ =>
          ["You had " ++ natToStr spendDays ++
           " active spending days this month, averaging about $" ++ toFixed2J avgDaily ++
           " per day. The busiest day was " ++ monthDayStr busiest.1 ++
           " when you spent $" ++ toFixed2J busiest.2 ++ ".\n"]
        | [] => []
      else []
    let repeating :=
      (sortDescBy (fun p => some ((p.2.2 : Nat) : ℚ))
        (b.merchants.filter (fun p => p.2.2 ≥ 3))).take 3
    let l7 :=
      if repeating.length > 0 then
        ["A few patterns caught my eye: ",
         String.intercalate ", "
           (repeating.map (fun p => p.1 ++ " appeared " ++ natToStr p.2.2 ++
             " times for a total of $" ++ toFixed2J p.2.1)) ++
         ". These might be worth reviewing if they're unexpected.\n"]
      else []
    l0 ++ l1 ++ l2 ++ l3 ++ l4 ++ l5 ++ l6 ++ l7 ++ ["\n---\n"]

def storylineFor (rows : List SanitizedTransaction) : String :=
  let byMonth := rows.foldl storyStep []
  let months := sortStrsJS (byMonth.map Prod.fst)
  String.join (months.map (fun mk => String.join (storylineMonth byMonth mk)))

/-- `formatData` (anonymizer.ts).  The output encoding is the raw string
the caller passes (TypeScript union types are erased at runtime); the
`default` switch branch returns the empty string. -/
def formatData (data : SanitizedData) (format : String) (opts : FormatOpts) : String :=
  if data.transactions.length = 0 then ""
  else
    let profile := opts.profile.getD ExportProfile.ai_safe
    let detailLevel :=
      opts.detailLevel.getD
        (if profile = ExportProfile.audit then DetailLevel.standard
         else if profile = ExportProfile.debug then DetailLevel.debug
         else DetailLevel.minimal)
    let rows :=
      match opts.maxRows with
      | some m => data.transactions.take (max 0 m).toNat
      | none => data.transactions
    let truncated :=
      match opts.maxRows with
      | some m => decide ((data.transactions.length : Int) > m)
      | none => false
    let hl := opts.highlightTerm
    let maxRowsStr := match opts.maxRows with | some m => toString m | none => "undefined"
    if format = "json" then
      jsonArr (rows.map (fun t => jsonObjLines (jsonFieldsFor detailLevel t)))
    else if format = "csv" then
      (if profile = ExportProfile.ai_safe || !truncated then ""
       else "# PREVIEW: first " ++ maxRowsStr ++ " rows\n") ++
      csvHeaderFor detailLevel ++
      String.intercalate "\n" (rows.map (csvRowFor hl detailLevel))
    else if format = "markdown" then
      let body := mdHeaderFor detailLevel ++
        String.intercalate "\n" (rows.map (mdRowFor hl detailLevel))
      if profile = ExportProfile.ai_safe then body
      else
        "### Sanitized Financial Data\n" ++
        (if truncated then
          "\n> PREVIEW: showing first " ++ maxRowsStr ++ " rows of " ++
          natToStr data.transactions.length ++ "\n"
         else "\n") ++ "\n" ++ body
    else if format = "storyline" then storylineFor rows
    else if format = "text" then
      (if profile = ExportProfile.ai_safe || !truncated then ""
       else "PREVIEW: first " ++ maxRowsStr ++ " rows\n\n") ++
      String.intercalate "\n" (rows.map (textRowFor hl detailLevel))
    else ""

/-- "No new matches remain" (the side condition under which the spec asserts
idempotence of the sanitization transform): none of the patterns that
`sanitizeDescription` applies under options `o` matches `s`, and `s` is
already trimmed, whitespace-collapsed and title-cased. -/
def noResidual (o : AnonymizerOptions) (s : String) : Bool :=
  (activeTerms o).all (fun term => !jsTest (liti term) s) &&
  (!o.maskPii ||
    (!jsTest cardPat s && !jsTest ssnPat s && !jsTest emailPat s &&
     !jsTest phonePat s && !jsTest urlPat s && !jsTest addressPat s &&
     !jsTest zipPat s)) &&
  idPats.all (fun p => !jsTest p s) &&
  (!o.scrubContacts || !jsTest namesPat s) &&
  (!o.fuzzLocation || !jsTest locationsPat s) &&
  !jsTest noisePat s && !jsTest slashNoisePat s && !jsTest pipeNoisePat s &&
  !jsTest merchantRailPat s &&
  (trimJS s == s) && (collapseWS s == s) && (titleCaseJS s == s)

/-! ## Theorems

The remainder of the file settles the specification claims against the
embedding above. -/

/-! ### Row-order inference (claim C6) -/

def adjPairs (l : List String) : List (String × String) := l.zip (l.drop 1)

/-- Strictly-increasing adjacent pairs, stated independently of the loop. -/
def ascCount (l : List String) : Nat := (adjPairs l).countP (fun p => strLtJS p.1 p.2)

/-- Strictly-decreasing adjacent pairs. -/
def descCount (l : List String) : Nat := (adjPairs l).countP (fun p => strLtJS p.2 p.1)

theorem bool_eq_false {b : Bool} (h : ¬ b = true) : b = false := by
  cases b
  · rfl
  · exact absurd rfl h

theorem listLtJS_asymm : ∀ (a b : List Char), listLtJS a b = true → listLtJS b a = false
  | [], [] => fun h => Bool.noConfusion h
  | [], _ :: _ => fun _ => rfl
  | _ :: _, [] => fun h => Bool.noConfusion h
  | a :: as, b :: bs => by
    intro hlt
    simp only [listLtJS] at hlt ⊢
    by_cases h : a = b
    · subst h
      simp only [beq_self_eq_true, if_true] at hlt ⊢
      exact listLtJS_asymm as bs hlt
    · have hab : ¬ ((a == b) = true) := by simp [h]
      have hba : ¬ ((b == a) = true) := by
        simp only [beq_iff_eq]
        exact fun hc => h hc.symm
      rw [if_neg hab] at hlt
      rw [if_neg hba]
      simp only [decide_eq_true_eq] at hlt
      simp only [decide_eq_false_iff_not]
      omega

theorem strLtJS_asymm (a b : String) (h : strLtJS a b = true) : strLtJS b a = false :=
  listLtJS_asymm a.data b.data h

theorem ascDescCounts_eq : ∀ (l : List String), ascDescCounts l = (ascCount l, descCount l)
  | [] => by simp [ascDescCounts, ascCount, descCount, adjPairs]
  | [a] => by simp [ascDescCounts, ascCount, descCount, adjPairs]
  | a :: b :: tl => by
    have ih := ascDescCounts_eq (b :: tl)
    have hadj : adjPairs (a :: b :: tl) = (a, b) :: adjPairs (b :: tl) := by
      simp [adjPairs]
    simp only [ascDescCounts, ih]
    by_cases h1 : strLtJS a b = true
    · have h2 := strLtJS_asymm a b h1
      simp [ascCount, descCount, hadj, List.countP_cons, h1, h2]
    · by_cases h2 : strLtJS b a = true
      · simp [ascCount, descCount, hadj, List.countP_cons, bool_eq_false h1, h2]
      · simp [ascCount, descCount, hadj, List.countP_cons,
          bool_eq_false h1, bool_eq_false h2]

/-- C6 (amended): row-order inference returns `unknown` when fewer than 3
dates parse or when no adjacent pair differs; otherwise it returns `asc`
whenever the strictly-increasing pair count is greater than or equal to the
strictly-decreasing count (so ties resolve to `asc`, not `unknown`), and
`desc` otherwise. -/
theorem inferRowOrder_characterization (dateValues : List (Option String)) :
    inferRowOrderFromDates dateValues =
      (if (dateValues.filterMap id).length < 3 then RowOrder.unknown
       else if ascCount (dateValues.filterMap id) = 0 ∧
               descCount (dateValues.filterMap id) = 0 then RowOrder.unknown
       else if ascCount (dateValues.filterMap id) ≥
               descCount (dateValues.filterMap id) then RowOrder.asc
       else RowOrder.desc) := by
  unfold inferRowOrderFromDates
  simp only [ascDescCounts_eq]
  by_cases h : (dateValues.filterMap id).length < 3
  · simp [h]
  · simp only [h, if_false]
    by_cases h0 : ascCount (dateValues.filterMap id) = 0 ∧
        descCount (dateValues.filterMap id) = 0
    · simp [h0.1, h0.2]
    · have hb : (decide (ascCount (dateValues.filterMap id) = 0) &&
          decide (descCount (dateValues.filterMap id) = 0)) = false := by
        by_cases hca : ascCount (dateValues.filterMap id) = 0
        · have hcd : ¬ descCount (dateValues.filterMap id) = 0 :=
            fun hd => h0 ⟨hca, hd⟩
          simp [hca, hcd]
        · simp [hca]
      rw [if_neg (by simp [hb]), if_neg h0]

/-- C6 counterexample: the parsed dates `2024-01-01, 2024-01-02, 2024-01-01`
have one strictly-increasing and one strictly-decreasing adjacent pair — a
tie — yet inference returns `asc`, not the `unknown` the claim requires. -/
theorem inferRowOrder_tie_not_unknown :
    ascCount ["2024-01-01", "2024-01-02", "2024-01-01"] =
      descCount ["2024-01-01", "2024-01-02", "2024-01-01"] ∧
    ascCount ["2024-01-01", "2024-01-02", "2024-01-01"] = 1 ∧
    inferRowOrderFromDates
      [some "2024-01-01", some "2024-01-02", some "2024-01-01"] = RowOrder.asc ∧
    inferRowOrderFromDates
      [some "2024-01-01", some "2024-01-02", some "2024-01-01"] ≠ RowOrder.unknown := by
  refine ⟨by decide, by decide, by decide, by decide⟩

/-! ### Row shaping (claim C7) -/

theorem le_foldl_max (l : List (List String)) (init : Nat) :
    init ≤ l.foldl (fun m r => max m r.length) init := by
  induction l generalizing init with
  | nil => simp
  | cons r tl ih => exact le_trans (le_max_left _ _) (ih (max init r.length))

theorem mem_le_foldl_max (l : List (List String)) (init : Nat) :
    ∀ r ∈ l, r.length ≤ l.foldl (fun m r => max m r.length) init := by
  induction l generalizing init with
  | nil => simp
  | cons x tl ih =>
    intro r hr
    rcases List.mem_cons.mp hr with h | h
    · subst h
      exact le_trans (le_max_right init r.length) (le_foldl_max tl _)
    · exact ih (max init x.length) r h

theorem extendHeader_length (h : List String) (m : Nat) :
    (extendHeader h m).length = max h.length m := by
  simp [extendHeader]
  omega

theorem padRow_length (r : List String) (m : Nat) :
    (padRow r m).length = max r.length m := by
  simp [padRow]
  omega

/-- Width of the shaped grid. -/
def gridWidth (rows : List (List String)) : Nat :=
  match rows.filter rowNonBlank with
  | [] => 0
  | h :: rest => rest.foldl (fun m r => max m r.length) h.length

/-- C7 (amended): after shaping every row has the same cell count, and —
provided the header row itself has a non-blank cell — the shaped data rows
are exactly the input data rows that contain a non-blank cell, in input
order, each padded to the grid width; all-blank rows are dropped (so the
claim's "no row is dropped" fails, see the counterexample). -/
theorem shapeRows_shape :
    (∀ (rows : List (List String)), ∀ r1 ∈ shapeRows rows, ∀ r2 ∈ shapeRows rows,
      r1.length = r2.length) ∧
    (∀ (h : List String) (rest : List (List String)), rowNonBlank h = true →
      (shapeRows (h :: rest)).drop 1 =
        (rest.filter rowNonBlank).map (fun r => padRow r (gridWidth (h :: rest)))) := by
  constructor
  · intro rows
    unfold shapeRows
    cases hf : rows.filter rowNonBlank with
    | nil => simp
    | cons hh rest =>
      have hlen0 : ∀ (header0 : List String), header0.length = hh.length →
          ∀ r1 ∈ extendHeader header0 (rest.foldl (fun m r => max m r.length) header0.length) ::
            rest.map (fun r => padRow r (rest.foldl (fun m r => max m r.length) header0.length)),
          r1.length = rest.foldl (fun m r => max m r.length) header0.length := by
        intro header0 _ r1 h1
        rcases List.mem_cons.mp h1 with h | h
        · subst h
          rw [extendHeader_length]
          exact max_eq_right (le_foldl_max _ _)
        · rcases List.mem_map.mp h with ⟨r, hr, hpad⟩
          subst hpad
          rw [padRow_length]
          exact max_eq_right (mem_le_foldl_max _ _ r hr)
      intro r1 h1 r2 h2
      cases hh with
      | nil =>
        have e1 := hlen0 [] rfl r1 h1
        have e2 := hlen0 [] rfl r2 h2
        rw [e1, e2]
      | cons c tl =>
        have e1 := hlen0 (stripBomCell c :: tl) (by simp) r1 h1
        have e2 := hlen0 (stripBomCell c :: tl) (by simp) r2 h2
        rw [e1, e2]
  · intro h rest hh
    unfold shapeRows gridWidth
    simp only [List.filter_cons, hh, if_true]
    cases h with
    | nil => simp [rowNonBlank] at hh
    | cons c tl => simp

/-- C7 counterexample: an interior all-blank row is removed by shaping, so
the shaped data rows are not the input data rows — a row is dropped. -/
theorem shapeRows_drops_blank_row :
    shapeRows [["a"], [""], ["b"]] = [["a"], ["b"]] ∧
    (shapeRows [["a"], [""], ["b"]]).drop 1 ≠ ([["a"], [""], ["b"]] : List (List String)).drop 1 := by
  refine ⟨by decide, by decide⟩

/-- C7 witness: the shaped-tail description applies to a concrete ragged
grid with a non-blank header. -/
theorem shapeRows_shape_witness :
    (shapeRows [["Date", "Amt"], ["2024-01-01"], ["", ""]]).drop 1 =
      ([["2024-01-01"]].filter rowNonBlank).map
        (fun r => padRow r (gridWidth [["Date", "Amt"], ["2024-01-01"], ["", ""]])) := by
  have h := shapeRows_shape.2 ["Date", "Amt"] [["2024-01-01"], ["", ""]] (by decide)
  have hf : ([["2024-01-01"], ["", ""]] : List (List String)).filter rowNonBlank =
      [["2024-01-01"]] := by decide
  rw [hf] at h
  exact h

/-! ### `formatData` on empty data and unknown encodings (claim C9) -/

/-- C9: for every result whose transaction list is empty, `formatData`
returns the empty string for every encoding, detail level, profile and
row-limit option; and for every encoding string outside the five
recognized ones it also returns the empty string. -/
theorem formatData_empty_or_unknown :
    (∀ (d : SanitizedData) (fmt : String) (opts : FormatOpts),
      d.transactions = [] → formatData d fmt opts = "") ∧
    (∀ (d : SanitizedData) (fmt : String) (opts : FormatOpts),
      fmt ∉ (["json", "markdown", "csv", "text", "storyline"] : List String) →
      formatData d fmt opts = "") := by
  constructor
  · intro d fmt opts hempty
    unfold formatData
    simp [hempty]
  · intro d fmt opts hfmt
    unfold formatData
    simp only [List.mem_cons, List.mem_singleton, not_or] at hfmt
    obtain ⟨h1, h2, h3, h4, h5, _⟩ := hfmt
    by_cases hlen : d.transactions.length = 0
    · simp [hlen]
    · simp [hlen, h1, h2, h3, h4, h5]

def emptyMetadata : SanitizedMetadata :=
  ⟨true, 0, 0, [], [], RowOrder.unknown, DirectionStrategy.fallback, 0, [], [],
   0, 0, 0, ⟨[], 0, 0, 0, 0, false⟩⟩

/-- C9 witness: a concrete empty result renders as `""` in every encoding,
and a concrete unrecognized encoding renders as `""`. -/
theorem formatData_empty_or_unknown_witness :
    formatData ⟨emptyMetadata, []⟩ "json" {} = "" ∧
    formatData
      ⟨emptyMetadata,
       [⟨"2024-01-01", "Tea", "Tea", "Other", 2 / 5, some 5, TxType.income,
         Inference.explicit⟩]⟩ "xml" {} = "" := by
  constructor
  · exact formatData_empty_or_unknown.1 ⟨emptyMetadata, []⟩ "json" {} rfl
  · exact formatData_empty_or_unknown.2 _ "xml" {} (by decide)

/-! ### Direction-strategy reporting (claim C5) -/

def optsDefault : AnonymizerOptions := {}

/-- A grid where a type column (with an amount column) and a balance column
are all detected. -/
def gridC5 : List (List String) :=
  [["Date", "Description", "Type", "Amount", "Balance"],
   ["2024-01-01", "Coffee", "debit", "5.00", "100.00"],
   ["2024-01-02", "Salary", "credit", "50.00", "150.00"],
   ["2024-01-03", "Tea", "debit", "4.00", "146.00"]]

def dataC5 : SanitizedData :=
  (processRows optsDefault gridC5).toOption.getD ⟨emptyMetadata, []⟩

/-- C5 (amended): whenever any balance column is detected, `processRows`
reports `balance` as the `directionStrategy` — overriding the declared
priority order — while `inferDirectionDecision` itself does return `type`
for a type column without split columns.  So with both a type and a
balance column the metadata reports `balance`, not the `type` the claim
requires. -/
theorem processRows_balance_strategy :
    (∀ (o : AnonymizerOptions) (rows : List (List String)) (data : SanitizedData),
      processRows o rows = Except.ok data →
      (∃ c ∈ data.metadata.detectedColumnsList, c.columnType = ColumnType.balance) →
      data.metadata.directionStrategy = DirectionStrategy.balance) ∧
    (∀ args : DirectionArgs, args.hasSplit = false → args.hasType = true →
      (inferDirectionDecision args).strategy = DirectionStrategy.type) := by
  constructor
  · intro o rows data hok hbal
    unfold processRows at hok
    cases hp : processPrep o rows with
    | error e => rw [hp] at hok; exact Except.noConfusion hok
    | ok res =>
      obtain ⟨rows', analysis, ctx⟩ := res
      rw [hp] at hok
      simp only [Except.ok.injEq] at hok
      have hdata : data = buildResult rows' analysis ctx
          (processLoop ctx 1 (rows'.drop 1) (initState o)) := hok.symm
      simp only [processPrep] at hp
      by_cases h1 : (shapeRows rows).length < 2
      · rw [if_pos h1] at hp; exact Except.noConfusion hp
      · rw [if_neg h1] at hp
        split at hp
        · exact Except.noConfusion hp
        · split at hp
          · exact Except.noConfusion hp
          · simp only [Except.ok.injEq, Prod.mk.injEq] at hp
            obtain ⟨hrows', hana, hctx'⟩ := hp
            have hbalIdx : ctx.balanceIdx =
                List.findIdx? (fun c => decide (c.columnType = ColumnType.balance))
                  (detectColumnsWithContext (shapeRows rows)) := by
              rw [← hctx']
            have hlist : data.metadata.detectedColumnsList = analysis := by
              rw [hdata]; simp [buildResult]
            have hfind : ctx.balanceIdx.isSome = true := by
              rw [hbalIdx, hana]
              rcases hbal with ⟨c, hc, hct⟩
              rw [hlist] at hc
              cases hfd2 : List.findIdx? (fun c => decide (c.columnType = ColumnType.balance))
                  analysis with
              | some _ => rfl
              | none =>
                have := List.findIdx?_eq_none_iff.mp hfd2 c hc
                simp [hct] at this
            rw [hdata]
            simp [buildResult, hfind]
  · intro args h1 h2
    unfold inferDirectionDecision
    simp [h1, h2]

/-- C5 counterexample: on a grid where date, description, type, amount and
balance columns are all detected, the reported `directionStrategy` is
`balance`, not the `type` the claim requires. -/
theorem strategy_balance_not_type_at_gridC5 :
    (processRows optsDefault gridC5).toOption.map
      (fun d => (d.metadata.directionStrategy,
        d.metadata.detectedColumnsList.map (fun c => c.columnType))) =
      some (DirectionStrategy.balance,
        [ColumnType.date, ColumnType.description, ColumnType.type,
         ColumnType.amount, ColumnType.balance]) ∧
    DirectionStrategy.balance ≠ DirectionStrategy.type := by
  refine ⟨by decide, by decide⟩

theorem except_toOption_ok {ε α : Type} {e : Except ε α} {a : α}
    (h : e.toOption = some a) : e = Except.ok a := by
  cases e with
  | ok b =>
    simp only [Except.toOption, Option.some.injEq] at h
    rw [h]
  | error _ => simp [Except.toOption] at h

/-- C5 witness: the amended claim applied to the concrete grid. -/
theorem processRows_balance_strategy_witness :
    (processRows optsDefault gridC5).toOption = some dataC5 ∧
    dataC5.metadata.directionStrategy = DirectionStrategy.balance := by
  have htop : (processRows optsDefault gridC5).toOption = some dataC5 := by decide
  exact ⟨htop, processRows_balance_strategy.1 optsDefault gridC5 dataC5
    (except_toOption_ok htop) (by decide)⟩

/-! ### Fatal-error behaviour of `processRows` (claim C2) -/

/-- Index of the first column classified with the given role. -/
def roleIdx (rows : List (List String)) (t : ColumnType) : Option Nat :=
  (detectColumnsWithContext (shapeRows rows)).findIdx? (fun c => c.columnType = t)

/-- No monetary role (amount, debit, credit, balance) was classified. -/
def monetaryMissing (rows : List (List String)) : Bool :=
  (roleIdx rows ColumnType.amount).isNone && (roleIdx rows ColumnType.debit).isNone &&
  (roleIdx rows ColumnType.credit).isNone && (roleIdx rows ColumnType.balance).isNone

def gridC2 : List (List String) := [["Description", "Amount"], ["Coffee", "4.50"]]

theorem listStartsWith_append : ∀ (n a b : List Char),
    listStartsWith n a = true → listStartsWith n (a ++ b) = true
  | [], _, _, _ => rfl
  | _ :: _, [], _, h => Bool.noConfusion h
  | c :: cs, d :: ds, b, h => by
    simp only [List.cons_append, listStartsWith, Bool.and_eq_true] at h ⊢
    exact ⟨h.1, listStartsWith_append cs ds b h.2⟩

theorem listHasInfix_nil_needle : ∀ (l : List Char), listHasInfix [] l = true
  | [] => rfl
  | c :: tl => by simp [listHasInfix, listStartsWith]

theorem listHasInfix_append_left : ∀ (a n b : List Char),
    listHasInfix n a = true → listHasInfix n (a ++ b) = true
  | [], n, b, h => by
    cases n with
    | nil => exact listHasInfix_nil_needle b
    | cons c cs => exact Bool.noConfusion h
  | a :: tl, n, b, h => by
    simp only [List.cons_append, listHasInfix, Bool.or_eq_true] at h ⊢
    rcases h with h | h
    · exact Or.inl (listStartsWith_append n (a :: tl) b h)
    · exact Or.inr (listHasInfix_append_left tl n b h)

theorem listHasInfix_append_right : ∀ (a n b : List Char),
    listHasInfix n b = true → listHasInfix n (a ++ b) = true
  | [], _, _, h => h
  | a :: tl, n, b, h => by
    simp only [List.cons_append, listHasInfix, Bool.or_eq_true]
    exact Or.inr (listHasInfix_append_right tl n b h)

theorem includesStr_append_left (a b n : String) (h : includesStr a n = true) :
    includesStr (a ++ b) n = true := by
  unfold includesStr at h ⊢
  rw [String.data_append]
  exact listHasInfix_append_left a.data n.data b.data h

theorem processRows_err_short (o : AnonymizerOptions) (rows : List (List String))
    (h : (shapeRows rows).length < 2) :
    processRows o rows = Except.error notEnoughDataMsg := by
  unfold processRows
  simp only [processPrep]
  rw [if_pos h]

theorem processRows_err_nodate (o : AnonymizerOptions) (rows : List (List String))
    (h1 : ¬ (shapeRows rows).length < 2) (h2 : roleIdx rows ColumnType.date = none) :
    processRows o rows =
      Except.error (noDateColumnMsg (detectColumnsWithContext (shapeRows rows))) := by
  unfold processRows
  simp only [processPrep]
  rw [if_neg h1]
  unfold roleIdx at h2
  rw [h2]

theorem processRows_err_nomoney (o : AnonymizerOptions) (rows : List (List String))
    (dIdx : Nat) (h1 : ¬ (shapeRows rows).length < 2)
    (h2 : roleIdx rows ColumnType.date = some dIdx) (h3 : monetaryMissing rows = true) :
    processRows o rows =
      Except.error (noMonetaryColumnMsg (detectColumnsWithContext (shapeRows rows))) := by
  unfold processRows
  simp only [processPrep]
  rw [if_neg h1]
  unfold roleIdx at h2
  rw [h2]
  unfold monetaryMissing roleIdx at h3
  simp only [Bool.and_eq_true] at h3
  simp [h3.1.1.1, h3.1.1.2, h3.1.2, h3.2]

theorem processRows_ok_of_found (o : AnonymizerOptions) (rows : List (List String))
    (dIdx : Nat) (h1 : ¬ (shapeRows rows).length < 2)
    (h2 : roleIdx rows ColumnType.date = some dIdx) (h3 : monetaryMissing rows = false) :
    ∃ data, processRows o rows = Except.ok data := by
  unfold processRows
  simp only [processPrep]
  rw [if_neg h1]
  unfold roleIdx at h2
  rw [h2]
  unfold monetaryMissing roleIdx at h3
  simp only [h3]
  simp

/-- C2: `processRows` throws exactly when the shaped grid has fewer than 2
rows, no column is classified date, or no monetary column (amount, debit,
credit, balance) is classified; the date error names "Date", the monetary
error names the monetary columns, and the concrete grid
`[["Description","Amount"],["Coffee","4.50"]]` fails with an error naming
"Date". -/
theorem processRows_error_characterization :
    (∀ (o : AnonymizerOptions) (rows : List (List String)),
      (∃ e, processRows o rows = Except.error e) ↔
        ((shapeRows rows).length < 2 ∨ roleIdx rows ColumnType.date = none ∨
          monetaryMissing rows = true)) ∧
    (∀ (o : AnonymizerOptions) (rows : List (List String)),
      ¬ (shapeRows rows).length < 2 → roleIdx rows ColumnType.date = none →
      processRows o rows =
        Except.error (noDateColumnMsg (detectColumnsWithContext (shapeRows rows))) ∧
      includesStr (noDateColumnMsg (detectColumnsWithContext (shapeRows rows))) "Date" = true) ∧
    (∀ (o : AnonymizerOptions) (rows : List (List String)) (dIdx : Nat),
      ¬ (shapeRows rows).length < 2 → roleIdx rows ColumnType.date = some dIdx →
      monetaryMissing rows = true →
      processRows o rows =
        Except.error (noMonetaryColumnMsg (detectColumnsWithContext (shapeRows rows))) ∧
      includesStr (noMonetaryColumnMsg (detectColumnsWithContext (shapeRows rows)))
        "monetary value columns" = true) ∧
    (∃ e, processRows optsDefault gridC2 = Except.error e ∧ includesStr e "Date" = true) := by
  have hdate : ∀ (A : List ColumnAnalysis),
      includesStr (noDateColumnMsg A) "Date" = true := by
    intro A
    unfold noDateColumnMsg
    apply includesStr_append_left
    apply includesStr_append_left
    apply includesStr_append_left
    apply includesStr_append_left
    decide
  have hmoney : ∀ (A : List ColumnAnalysis),
      includesStr (noMonetaryColumnMsg A) "monetary value columns" = true := by
    intro A
    unfold noMonetaryColumnMsg
    apply includesStr_append_left
    apply includesStr_append_left
    apply includesStr_append_left
    apply includesStr_append_left
    decide
  refine ⟨?_, ?_, ?_, ?_⟩
  · intro o rows
    constructor
    · rintro ⟨e, he⟩
      by_cases h1 : (shapeRows rows).length < 2
      · exact Or.inl h1
      · cases h2 : roleIdx rows ColumnType.date with
        | none => exact Or.inr (Or.inl rfl)
        | some dIdx =>
          by_cases h3 : monetaryMissing rows = true
          · exact Or.inr (Or.inr h3)
          · exfalso
            obtain ⟨data, hok⟩ := processRows_ok_of_found o rows dIdx h1 h2
              (bool_eq_false h3)
            rw [hok] at he
            exact Except.noConfusion he
    · intro h
      rcases h with h | h | h
      · exact ⟨_, processRows_err_short o rows h⟩
      · by_cases h1 : (shapeRows rows).length < 2
        · exact ⟨_, processRows_err_short o rows h1⟩
        · exact ⟨_, processRows_err_nodate o rows h1 h⟩
      · by_cases h1 : (shapeRows rows).length < 2
        · exact ⟨_, processRows_err_short o rows h1⟩
        · cases h2 : roleIdx rows ColumnType.date with
          | none => exact ⟨_, processRows_err_nodate o rows h1 h2⟩
          | some dIdx => exact ⟨_, processRows_err_nomoney o rows dIdx h1 h2 h⟩
  · intro o rows h1 h2
    exact ⟨processRows_err_nodate o rows h1 h2, hdate _⟩
  · intro o rows dIdx h1 h2 h3
    exact ⟨processRows_err_nomoney o rows dIdx h1 h2 h3, hmoney _⟩
  · refine ⟨noDateColumnMsg (detectColumnsWithContext (shapeRows gridC2)), ?_, hdate _⟩
    exact processRows_err_nodate optsDefault gridC2 (by decide) (by decide)

/-- C2 witness: the characterization applied to the concrete missing-date
grid, whose error message names "Date". -/
theorem processRows_error_characterization_witness :
    processRows optsDefault gridC2 =
      Except.error (noDateColumnMsg (detectColumnsWithContext (shapeRows gridC2))) ∧
    includesStr (noDateColumnMsg (detectColumnsWithContext (shapeRows gridC2))) "Date" = true := by
  exact processRows_error_characterization.2.1 optsDefault gridC2 (by decide) (by decide)

/-! ### Output invariants of the row loop (claims C1, C10) -/

/-- Well-formedness of an emitted transaction: the amount is never exactly
zero (a NaN amount, modelled `none`, also differs from zero as in JS), and
the type field restates the amount's sign. -/
def TxOk (p : Nat × SanitizedTransaction) : Prop :=
  p.2.amount ≠ some 0 ∧
  ∀ q : ℚ, p.2.amount = some q →
    (0 < q → p.2.type = TxType.income) ∧ (q < 0 → p.2.type = TxType.expense)

theorem txOk_of_fields {tx : SanitizedTransaction} (i : Nat)
    (h1 : jNe tx.amount (some 0) = true)
    (h2 : tx.type = (if jGt tx.amount (some 0) then TxType.income else TxType.expense)) :
    TxOk (i, tx) := by
  constructor
  · intro hc
    rw [hc] at h1
    simp [jNe, jEq] at h1
  · intro q hq
    constructor
    · intro hpos
      rw [h2, hq]
      simp [jGt, hpos]
    · intro hneg
      rw [h2, hq]
      have hng : jGt (some q) (some 0) = false := by
        simp only [jGt, decide_eq_false_iff_not]
        linarith
      simp [hng]

/-- Each loop step either leaves the emitted list unchanged, or appends one
transaction tagged with the current row index and satisfying `TxOk`'s field
equations, whose date comes from the row's date cell. -/
theorem processRowStep_txs (ctx : RowCtx) (i : Nat) (st : LoopState) (row : List String) :
    (processRowStep ctx i st row).txs = st.txs ∨
    ∃ tx : SanitizedTransaction,
      (processRowStep ctx i st row).txs = st.txs ++ [(i, tx)] ∧
      jNe tx.amount (some 0) = true ∧
      tx.type = (if jGt tx.amount (some 0) then TxType.income else TxType.expense) ∧
      parseDateString (cellAt row ctx.dateIdx) = some tx.date := by
  by_cases hl : row.length < 2
  · left
    simp [processRowStep, hl]
  · cases hd : parseDateString (cellAt row ctx.dateIdx) with
    | none =>
      left
      simp [processRowStep, hl, hd]
    | some dateStr =>
      by_cases ha : jNe (rowAmountRes ctx st row).amount (some 0) = true
      · right
        refine ⟨rowTxOf ctx st row dateStr, ?_, ha, rfl, ?_⟩
        · simp [processRowStep, hl, hd, ha]
        · rfl
      · left
        simp [processRowStep, hl, hd, bool_eq_false ha]

/-- The emitted transactions of the loop over a row suffix: appended in
order, with strictly increasing row tags drawn from the processed range,
each satisfying `TxOk` and dated from its own row. -/
theorem processLoop_txs : ∀ (ctx : RowCtx) (rs : List (List String)) (i : Nat) (st : LoopState),
    ∃ news : List (Nat × SanitizedTransaction),
      (processLoop ctx i rs st).txs = st.txs ++ news ∧
      List.Chain' (fun a b => a < b) (news.map Prod.fst) ∧
      ∀ p ∈ news, i ≤ p.1 ∧ p.1 < i + rs.length ∧ TxOk p ∧
        parseDateString (cellAt (rs.getD (p.1 - i) []) ctx.dateIdx) = some p.2.date
  | ctx, [], i, st => ⟨[], by simp [processLoop], by simp, by simp⟩
  | ctx, r :: rs, i, st => by
    have step := processRowStep_txs ctx i st r
    obtain ⟨news, hnews, hchain, hprop⟩ :=
      processLoop_txs ctx rs (i + 1) (processRowStep ctx i st r)
    rcases step with hsame | ⟨tx, happ, hne, hty, hdate⟩
    · refine ⟨news, ?_, hchain, ?_⟩
      · simp only [processLoop]
        rw [hnews, hsame]
      · intro p hp
        obtain ⟨hle, hlt, hok, hd⟩ := hprop p hp
        refine ⟨by omega, by simp only [List.length_cons]; omega, hok, ?_⟩
        have h1 : p.1 - i = (p.1 - (i + 1)) + 1 := by omega
        rw [h1]
        simpa using hd
    · refine ⟨(i, tx) :: news, ?_, ?_, ?_⟩
      · simp only [processLoop]
        rw [hnews, happ]
        simp
      · rw [List.map_cons]
        apply List.chain'_cons'.mpr
        refine ⟨?_, hchain⟩
        intro b hb
        cases news with
        | nil => simp at hb
        | cons p tl =>
          simp only [List.map_cons, List.head?_cons, Option.mem_def,
            Option.some.injEq] at hb
          have := (hprop p (List.mem_cons_self p tl)).1
          omega
      · intro p hp
        rcases List.mem_cons.mp hp with rfl | hp'
        · refine ⟨le_refl i, by simp only [List.length_cons]; omega,
            txOk_of_fields i hne hty, ?_⟩
          simpa using hdate
        · obtain ⟨hle, hlt, hok, hd⟩ := hprop p hp'
          refine ⟨by omega, by simp only [List.length_cons]; omega, hok, ?_⟩
          have h1 : p.1 - i = (p.1 - (i + 1)) + 1 := by omega
          rw [h1]
          simpa using hd

/-- The date-column index of a successfully processed grid. -/
def dateIdxOf (rows : List (List String)) : Nat :=
  (roleIdx rows ColumnType.date).getD 0

/-- Dissection of a successful `processRows` run: the date column exists,
the shaped grid has at least two rows, the returned transactions are the
tagged loop output, and that output comes from the loop over the shaped
data rows started at index 1 with the context built by `processPrep`. -/
theorem processRows_ok_elim {o : AnonymizerOptions} {rows : List (List String)}
    {data : SanitizedData} (hok : processRows o rows = Except.ok data) :
    roleIdx rows ColumnType.date = some (dateIdxOf rows) ∧
    2 ≤ (shapeRows rows).length ∧
    data.transactions = (emittedTagged o rows).map Prod.snd ∧
    emittedTagged o rows =
      (processLoop
        ⟨o, dateIdxOf rows, roleIdx rows ColumnType.description,
         roleIdx rows ColumnType.amount, roleIdx rows ColumnType.debit,
         roleIdx rows ColumnType.credit, roleIdx rows ColumnType.balance,
         roleIdx rows ColumnType.type,
         inferRowOrderFromDates (((shapeRows rows).drop 1).map
           (fun r => parseDateString (cellAt r (dateIdxOf rows))))⟩
        1 ((shapeRows rows).drop 1) (initState o)).txs := by
  unfold processRows at hok
  cases hp : processPrep o rows with
  | error e => rw [hp] at hok; exact Except.noConfusion hok
  | ok res =>
    obtain ⟨rows', analysis, ctx⟩ := res
    rw [hp] at hok
    simp only [Except.ok.injEq] at hok
    have hem : emittedTagged o rows =
        (processLoop ctx 1 (rows'.drop 1) (initState o)).txs := by
      unfold emittedTagged
      rw [hp]
    simp only [processPrep] at hp
    by_cases h1 : (shapeRows rows).length < 2
    · rw [if_pos h1] at hp; exact Except.noConfusion hp
    · rw [if_neg h1] at hp
      split at hp
      · exact Except.noConfusion hp
      · split at hp
        · exact Except.noConfusion hp
        · rename_i dIdx hfd _
          simp only [Except.ok.injEq, Prod.mk.injEq] at hp
          obtain ⟨hrows', hana, hctx'⟩ := hp
          have hrole : roleIdx rows ColumnType.date = some dIdx := hfd
          have hdix : dateIdxOf rows = dIdx := by
            unfold dateIdxOf
            rw [hrole]
            rfl
          refine ⟨by rw [hdix]; exact hrole, by omega, ?_, ?_⟩
          · rw [← hok]
            simp [buildResult, hem]
          · rw [hem, ← hctx', ← hrows', hdix]
            rfl

/-- C1: on every accepted grid, every returned transaction has an amount
different from exactly zero, and its type field matches the amount's sign
(`income` for positive, `expense` for negative); zero-amount rows are never
emitted.  (A NaN amount, modelled as `none`, is also `!== 0` in JS and
carries no sign, so the sign conditions are vacuous there.) -/
theorem processRows_amount_type_invariant (o : AnonymizerOptions)
    (rows : List (List String)) (data : SanitizedData)
    (hok : processRows o rows = Except.ok data) :
    ∀ t ∈ data.transactions, t.amount ≠ some 0 ∧
      ∀ q : ℚ, t.amount = some q →
        (0 < q → t.type = TxType.income) ∧ (q < 0 → t.type = TxType.expense) := by
  obtain ⟨hrole, hlen, htx, hloop⟩ := processRows_ok_elim hok
  intro t ht
  rw [htx] at ht
  rcases List.mem_map.mp ht with ⟨p, hp, hpt⟩
  rw [hloop] at hp
  obtain ⟨news, hnews, _, hprop⟩ := processLoop_txs _ ((shapeRows rows).drop 1) 1 (initState o)
  rw [hnews] at hp
  simp only [initState, List.nil_append] at hp
  have hok2 := (hprop p hp).2.2.1
  rw [← hpt]
  exact ⟨hok2.1, hok2.2⟩

def gridC1 : List (List String) :=
  [["Date", "Description", "Balance"],
   ["2024-01-01", "Tea", "100"],
   ["2024-01-02", "Tea", "100"],
   ["2024-01-03", "Tea", "80"],
   ["2024-01-04", "Tea", "80"],
   ["2024-01-05", "Tea", "130"]]

def dataC1 : SanitizedData :=
  (processRows optsDefault gridC1).toOption.getD ⟨emptyMetadata, []⟩

/-- A placeholder transaction for `List.getD`. -/
def dummyTx : SanitizedTransaction :=
  ⟨"", "", "", "", 0, none, TxType.income, Inference.explicit⟩

/-- C1 witness: the invariant instantiated at the first transaction of a
concrete accepted grid, whose amount is −20. -/
theorem processRows_amount_type_invariant_witness :
    (dataC1.transactions.getD 0 dummyTx).amount ≠ some 0 ∧
    (dataC1.transactions.getD 0 dummyTx).type = TxType.expense := by
  have htop : (processRows optsDefault gridC1).toOption = some dataC1 := by decide
  have h := processRows_amount_type_invariant optsDefault gridC1 dataC1
    (except_toOption_ok htop) (dataC1.transactions.getD 0 dummyTx) (by decide)
  exact ⟨h.1, (h.2 (-20) (by decide)).2 (by decide)⟩

/-- C10: the transactions of a successful run are exactly the loop's tagged
output in order: each emitted transaction carries the index of the single
data row it came from (its date is that row's parsed date cell), the tags
are strictly increasing along the output list — so output order is input
file order, produced by one forward pass — and the indices all lie in the
data-row range of the shaped grid; no later stage reorders or removes
already-emitted transactions. -/
theorem processRows_output_order (o : AnonymizerOptions)
    (rows : List (List String)) (data : SanitizedData)
    (hok : processRows o rows = Except.ok data) :
    data.transactions = (emittedTagged o rows).map Prod.snd ∧
    List.Chain' (fun a b => a < b) ((emittedTagged o rows).map Prod.fst) ∧
    ∀ p ∈ emittedTagged o rows, 1 ≤ p.1 ∧ p.1 < (shapeRows rows).length ∧
      parseDateString (cellAt ((shapeRows rows).getD p.1 []) (dateIdxOf rows)) =
        some p.2.date := by
  obtain ⟨hrole, hlen, htx, hloop⟩ := processRows_ok_elim hok
  obtain ⟨news, hnews, hchain, hprop⟩ := processLoop_txs
    ⟨o, dateIdxOf rows, roleIdx rows ColumnType.description,
     roleIdx rows ColumnType.amount, roleIdx rows ColumnType.debit,
     roleIdx rows ColumnType.credit, roleIdx rows ColumnType.balance,
     roleIdx rows ColumnType.type,
     inferRowOrderFromDates (((shapeRows rows).drop 1).map
       (fun r => parseDateString (cellAt r (dateIdxOf rows))))⟩
    ((shapeRows rows).drop 1) 1 (initState o)
  have hemn : emittedTagged o rows = news := by
    rw [hloop, hnews]
    simp [initState]
  refine ⟨htx, by rw [hemn]; exact hchain, ?_⟩
  intro p hp
  rw [hemn] at hp
  obtain ⟨hle, hlt, _, hd⟩ := hprop p hp
  have hlen2 : ((shapeRows rows).drop 1).length = (shapeRows rows).length - 1 := by
    simp
  rw [hlen2] at hlt
  refine ⟨hle, by omega, ?_⟩
  have hidx : 1 + (p.1 - 1) = p.1 := by omega
  have hgd : ((shapeRows rows).drop 1).getD (p.1 - 1) [] =
      (shapeRows rows).getD p.1 [] := by
    rw [List.getD_eq_getElem?_getD, List.getD_eq_getElem?_getD,
      List.getElem?_drop, hidx]
  rw [← hgd]
  exact hd

/-- C10 witness: the ordering facts on a concrete accepted grid. -/
theorem processRows_output_order_witness :
    dataC1.transactions = (emittedTagged optsDefault gridC1).map Prod.snd ∧
    List.Chain' (fun a b => a < b)
      ((emittedTagged optsDefault gridC1).map Prod.fst) := by
  have htop : (processRows optsDefault gridC1).toOption = some dataC1 := by decide
  have h := processRows_output_order optsDefault gridC1 dataC1 (except_toOption_ok htop)
  exact ⟨h.1, h.2.1⟩

/-! ### Balance reconciliation example (claim C3) -/

def gridC3 : List (List String) :=
  [["Date", "Description", "Balance"],
   ["2024-01-01", "Tea", "100"],
   ["2024-01-02", "Tea", "100"],
   ["2024-01-03", "Tea", "80"],
   ["2024-01-04", "Tea", "80"],
   ["2024-01-05", "Tea", "130"]]

/-- C3: on a grid whose balance column reads 100, 100, 80, 80, 130 in
ascending file order (parseable dates, no summary descriptions, no other
monetary columns), exactly two transactions are emitted — amounts −20 and
+50, the two zero deltas dropped — each derived from the balance, with
direction matching the delta's sign. -/
theorem balance_reconciliation_gridC3 :
    (processRows optsDefault gridC3).toOption.map
      (fun d => d.transactions.map (fun t => (t.amount, t.type, t.inferenceSource))) =
      some [(some (-20), TxType.expense, Inference.derived_from_balance),
            (some 50, TxType.income, Inference.derived_from_balance)] ∧
    (processRows optsDefault gridC3).toOption.map
      (fun d => (d.metadata.rowOrder, d.metadata.sanitizedRowCount)) =
      some (RowOrder.asc, 2) := by
  refine ⟨by decide, by decide⟩

/-! ### Preflight versus processing redaction counts (claim C8) -/

/-- A grid whose second data row has an unparsable date but an email-bearing
description. -/
def gridC8 : List (List String) :=
  [["Date", "Description", "Amount"],
   ["2024-01-01", "Tea", "5"],
   ["zzz", "a@b.cd", "7"]]

/-- C8: `preflightRows` counts an email redaction for a row that
`processRows` skips entirely (unparsable date), so the preflight counts
exceed the processing counts — the claim's "sampling never overstates"
fails on the code. -/
theorem preflight_overstates_gridC8 :
    recordGet (preflightRows optsDefault gridC8 none).plannedRedactions "email" = 1 ∧
    (processRows optsDefault gridC8).toOption.map
      (fun d => recordGet d.metadata.removalReport.redactions "email") = some 0 := by
  refine ⟨by decide, by decide⟩

/-! ### Conditional idempotence of `sanitizeDescription` (claim C4) -/

theorem hasMatch_head (re : RE) (prev : Option Char) (s : List Char)
    (h : hasMatchAux re prev s = false) : reHead re prev s = none := by
  cases s with
  | nil =>
    rw [hasMatchAux] at h
    cases hh : reHead re prev [] with
    | none => rfl
    | some r => rw [hh] at h; simp at h
  | cons c tl =>
    rw [hasMatchAux] at h
    cases hh : reHead re prev (c :: tl) with
    | none => rfl
    | some r => rw [hh] at h; simp at h

theorem hasMatch_tail (re : RE) (prev : Option Char) (c : Char) (tl : List Char)
    (h : hasMatchAux re prev (c :: tl) = false) :
    hasMatchAux re (some c) tl = false := by
  have h0 := h
  rw [hasMatchAux, hasMatch_head re prev (c :: tl) h0] at h
  exact h

theorem reReplAux_of_no_match (fuel : Nat) (re : RE) (f : List Char → List Char)
    (prev : Option Char) (s : List Char) (h : hasMatchAux re prev s = false) :
    reReplAux fuel re f prev s = s := by
  induction s generalizing fuel prev with
  | nil =>
    cases fuel with
    | zero => rfl
    | succ n => rw [reReplAux, hasMatch_head re prev [] h]
  | cons c tl ih =>
    cases fuel with
    | zero => rfl
    | succ n =>
      rw [reReplAux, hasMatch_head re prev (c :: tl) h]
      exact congrArg (List.cons c) (ih n (some c) (hasMatch_tail re prev c tl h))

theorem jsReplaceAll_of_no_match (re : RE) (repl s : String)
    (h : jsTest re s = false) : jsReplaceAll re repl s = s := by
  rw [jsReplaceAll, jsReplaceAllF,
    reReplAux_of_no_match (s.data.length + 1) re _ none s.data h]

theorem reReplOnceAux_of_no_match (re : RE) (f : List Char → List Char)
    (prev : Option Char) (s : List Char) (h : hasMatchAux re prev s = false) :
    reReplOnceAux re f prev s = s := by
  induction s generalizing prev with
  | nil => rw [reReplOnceAux, hasMatch_head re prev [] h]
  | cons c tl ih =>
    rw [reReplOnceAux, hasMatch_head re prev (c :: tl) h]
    exact congrArg (List.cons c) (ih (some c) (hasMatch_tail re prev c tl h))

theorem jsReplaceOnce_of_no_match (re : RE) (repl s : String)
    (h : jsTest re s = false) : jsReplaceOnce re repl s = s := by
  rw [jsReplaceOnce, reReplOnceAux_of_no_match re _ none s.data h]

theorem reCountAux_of_no_match (fuel : Nat) (re : RE) (prev : Option Char)
    (s : List Char) (h : hasMatchAux re prev s = false) :
    reCountAux fuel re prev s = 0 := by
  induction s generalizing fuel prev with
  | nil =>
    cases fuel with
    | zero => rfl
    | succ n => rw [reCountAux, hasMatch_head re prev [] h]
  | cons c tl ih =>
    cases fuel with
    | zero => rfl
    | succ n =>
      rw [reCountAux, hasMatch_head re prev (c :: tl) h]
      exact ih n (some c) (hasMatch_tail re prev c tl h)

theorem reCount_of_no_match (re : RE) (s : String) (h : jsTest re s = false) :
    reCount re s = 0 :=
  reCountAux_of_no_match (s.data.length + 1) re none s.data h

theorem customStep_id (s : String) (r : Option RemovalReport) (term : String)
    (h : jsTest (liti term) s = false) : customStep (s, r) term = (s, r) := by
  simp [customStep, reCount_of_no_match (liti term) s h]

theorem foldl_customStep_id (terms : List String) (s : String)
    (r : Option RemovalReport)
    (h : ∀ term ∈ terms, jsTest (liti term) s = false) :
    terms.foldl customStep (s, r) = (s, r) := by
  induction terms with
  | nil => rfl
  | cons a as ih =>
    rw [List.foldl_cons, customStep_id s r a (h a (List.mem_cons_self a as))]
    exact ih (fun x hx => h x (List.mem_cons_of_mem a hx))

theorem applyCustomRemovals_id (o : AnonymizerOptions) (s : String)
    (r : Option RemovalReport)
    (h : ∀ term ∈ activeTerms o, jsTest (liti term) s = false)
    (hco : collapseWS s = s) (htr : trimJS s = s) :
    applyCustomRemovals o s r = (s, r) := by
  simp only [applyCustomRemovals]
  split
  · rfl
  · rw [foldl_customStep_id (activeTerms o) s r h]
    show (trimJS (collapseWS s), r) = (s, r)
    rw [hco, htr]

theorem idStep_id (s : String) (r : Option RemovalReport) (pat : RE)
    (h : jsTest pat s = false) : idStep (s, r) pat = (s, r) := by
  simp [idStep, jsReplaceAll_of_no_match pat "" s h]

theorem foldl_idStep_id (pats : List RE) (s : String) (r : Option RemovalReport)
    (h : ∀ p ∈ pats, jsTest p s = false) :
    pats.foldl idStep (s, r) = (s, r) := by
  induction pats with
  | nil => rfl
  | cons a as ih =>
    rw [List.foldl_cons, idStep_id s r a (h a (List.mem_cons_self a as))]
    exact ih (fun x hx => h x (List.mem_cons_of_mem a hx))

theorem piiStep_id (pat : RE) (repl key : String) (s : String)
    (r : Option RemovalReport) (h : jsTest pat s = false) :
    piiStep pat repl key (s, r) = (s, r) := by
  simp [piiStep, jsReplaceAll_of_no_match pat repl s h]

/-- Strings with no residual matches are fixpoints of the sanitization
transform. -/
theorem sanitize_fixpoint (o : AnonymizerOptions) (t : String)
    (h : noResidual o t = true) : (sanitizeDescription o t none).1 = t := by
  unfold noResidual at h
  simp only [Bool.and_eq_true, Bool.or_eq_true, Bool.not_eq_true',
    List.all_eq_true, beq_iff_eq] at h
  obtain ⟨⟨⟨⟨⟨⟨⟨⟨⟨⟨⟨hterm, hpii⟩, hid⟩, hscrub⟩, hfuzz⟩, hnoise⟩, hslash⟩,
    hpipe⟩, hrail⟩, htr⟩, hco⟩, hti⟩ := h
  by_cases hf : t = ""
  · subst hf
    rfl
  · have hfb : isFalsy t = false := by
      unfold isFalsy
      exact beq_eq_false_iff_ne.mpr hf
    have hnoise' := jsReplaceAll_of_no_match noisePat "" t hnoise
    have hslash' := jsReplaceAll_of_no_match slashNoisePat " " t hslash
    have hpipe' := jsReplaceAll_of_no_match pipeNoisePat " " t hpipe
    have hrail' := jsReplaceOnce_of_no_match merchantRailPat "" t hrail
    have eA := applyCustomRemovals_id o t none hterm hco htr
    have eC := foldl_idStep_id idPats t none hid
    have hpii7 : o.maskPii = true →
        jsTest cardPat t = false ∧ jsTest ssnPat t = false ∧
        jsTest emailPat t = false ∧ jsTest phonePat t = false ∧
        jsTest urlPat t = false ∧ jsTest addressPat t = false ∧
        jsTest zipPat t = false := by
      intro hm
      obtain ⟨⟨⟨⟨⟨⟨h1, h2⟩, h3⟩, h4⟩, h5⟩, h6⟩, h7⟩ :=
        hpii.resolve_left (by simp [hm])
      exact ⟨h1, h2, h3, h4, h5, h6, h7⟩
    have c1 : o.maskPii = true → jsReplaceAll cardPat "****" t = t :=
      fun hm => jsReplaceAll_of_no_match _ _ _ (hpii7 hm).1
    have c2 : o.maskPii = true → jsReplaceAll ssnPat "[SSN]" t = t :=
      fun hm => jsReplaceAll_of_no_match _ _ _ (hpii7 hm).2.1
    have c3 : o.maskPii = true → jsReplaceAll emailPat "[EMAIL]" t = t :=
      fun hm => jsReplaceAll_of_no_match _ _ _ (hpii7 hm).2.2.1
    have c4 : o.maskPii = true → jsReplaceAll phonePat "[PHONE]" t = t :=
      fun hm => jsReplaceAll_of_no_match _ _ _ (hpii7 hm).2.2.2.1
    have c5 : o.maskPii = true → jsReplaceAll urlPat "[URL]" t = t :=
      fun hm => jsReplaceAll_of_no_match _ _ _ (hpii7 hm).2.2.2.2.1
    have c6 : o.maskPii = true → jsReplaceAll addressPat "[ADDRESS]" t = t :=
      fun hm => jsReplaceAll_of_no_match _ _ _ (hpii7 hm).2.2.2.2.2.1
    have c7 : o.maskPii = true → jsReplaceAll zipPat "[ZIP]" t = t :=
      fun hm => jsReplaceAll_of_no_match _ _ _ (hpii7 hm).2.2.2.2.2.2
    have n1 : o.scrubContacts = true → jsReplaceAll namesPat "Individual" t = t :=
      fun hs => jsReplaceAll_of_no_match _ _ _ (hscrub.resolve_left (by simp [hs]))
    have l1 : o.fuzzLocation = true → jsReplaceAll locationsPat " [LOC]" t = t :=
      fun hl => jsReplaceAll_of_no_match _ _ _ (hfuzz.resolve_left (by simp [hl]))
    by_cases hm : o.maskPii = true <;> by_cases hs : o.scrubContacts = true <;>
        by_cases hl : o.fuzzLocation = true <;>
      simp [sanitizeDescription, piiStep, hfb, hm, hs, hl, htr, hco, hti, eA, eC,
        c1, c2, c3, c4, c5, c6, c7, n1, l1, hnoise', hslash', hpipe', hrail']

/-- C4 (amended): the sanitization transform is idempotent only under the
spec's own side condition — when no pattern the options enable still matches
the sanitized output and that output is already trimmed,
whitespace-collapsed and title-cased, re-sanitizing returns the same string.
Unconditionally the claim fails (see the counterexample): a first pass can
rewrite an ID token into a shape a second pass matches again. -/
theorem sanitizeDescription_conditionally_idempotent (o : AnonymizerOptions)
    (s : String) (h : noResidual o (sanitizeDescription o s none).1 = true) :
    (sanitizeDescription o (sanitizeDescription o s none).1 none).1 =
      (sanitizeDescription o s none).1 :=
  sanitize_fixpoint o (sanitizeDescription o s none).1 h

theorem sanitizeDescription_conditionally_idempotent_witness :
    noResidual optsDefault (sanitizeDescription optsDefault "Tea" none).1 = true ∧
    (sanitizeDescription optsDefault
        ((sanitizeDescription optsDefault "Tea" none).1) none).1 =
      (sanitizeDescription optsDefault "Tea" none).1 :=
  ⟨by decide,
   sanitizeDescription_conditionally_idempotent optsDefault "Tea" (by decide)⟩

/-- C4 counterexample: with the default options, sanitizing "REF/ABCDEF"
once yields "Ref Abcdef" (the slash becomes a space before the ID patterns
are out of reach, and title-casing lowercases the tail), but sanitizing that
output again yields "" — the second pass matches the labeled-ID pattern
against "Ref Abcdef" and removes it, so the transform is not idempotent on
its own output. -/
theorem sanitizeDescription_not_idempotent :
    (sanitizeDescription optsDefault
        ((sanitizeDescription optsDefault "REF/ABCDEF" none).1) none).1 ≠
      (sanitizeDescription optsDefault "REF/ABCDEF" none).1 := by
  decide

end FinAnon








